import Mathlib

/-!
# Verification of the GPX `Waypoint` element binding (`src/gpx/waypoint.py`)

A shallow embedding of the waypoint module: the validated scalar types, the
XML parse/build lifecycle, the GeoJSON projection and the geodesy functions,
together with proofs of the spec's claims about them.

Python's arbitrary-precision `Decimal`, `datetime` and the repository's
`types`/`link`/`element` modules are not part of the shown source; where they
are needed they are modelled from the spec (each such definition says so in
its doc comment).
-/

namespace GPX

/-! ## Digit strings

Shared machinery for rendering and parsing the decimal digit strings used by
`Decimal`, `int` and the timestamp fields. -/

/-- Numeric value of a digit character (`'0'` ↦ 0, …, `'9'` ↦ 9). -/
def toDigit (c : Char) : Nat := c.toNat - 48

/-- Big-endian digit characters of a natural number (`0` renders as `"0"`). -/
def natChars (n : Nat) : List Char :=
  if n = 0 then ['0'] else ((Nat.digits 10 n).map Nat.digitChar).reverse

/-- Value of a big-endian digit-character string. -/
def natVal (l : List Char) : Nat := l.foldl (fun a c => a * 10 + toDigit c) 0

theorem toDigit_digitChar {d : Nat} (h : d < 10) : toDigit (Nat.digitChar d) = d := by
  interval_cases d <;> rfl

theorem isDigit_digitChar {d : Nat} (h : d < 10) : (Nat.digitChar d).isDigit = true := by
  interval_cases d <;> rfl

theorem foldl_digits (ds : List Nat) (hds : ∀ d ∈ ds, d < 10) (a : Nat) :
    List.foldl (fun a c => a * 10 + toDigit c) a ((ds.map Nat.digitChar).reverse) =
      a * 10 ^ ds.length + Nat.ofDigits 10 ds := by
  induction ds generalizing a with
  | nil => simp [Nat.ofDigits]
  | cons d ds ih =>
      have hd : d < 10 := hds d (by simp)
      have hds' : ∀ x ∈ ds, x < 10 := fun x hx => hds x (by simp [hx])
      simp only [List.map_cons, List.reverse_cons, List.foldl_append, List.foldl_cons,
        List.foldl_nil, ih hds', Nat.ofDigits_cons, List.length_cons,
        toDigit_digitChar hd]
      ring

theorem natVal_natChars (n : Nat) : natVal (natChars n) = n := by
  by_cases h : n = 0
  · subst h; rfl
  · have hds : ∀ d ∈ Nat.digits 10 n, d < 10 := fun d hd =>
      Nat.digits_lt_base (by norm_num) hd
    simp only [natVal, natChars, h, if_false, foldl_digits _ hds 0, Nat.zero_mul,
      Nat.zero_add, Nat.ofDigits_digits]

theorem natChars_ne_nil (n : Nat) : natChars n ≠ [] := by
  by_cases h : n = 0
  · subst h; simp [natChars]
  · simp only [natChars, h, if_false, ne_eq, List.reverse_eq_nil_iff, List.map_eq_nil_iff]
    exact Nat.digits_ne_nil_iff_ne_zero.mpr h

theorem natChars_all_digits (n : Nat) : ∀ c ∈ natChars n, c.isDigit = true := by
  intro c hc
  by_cases h : n = 0
  · subst h; simp [natChars] at hc; subst hc; rfl
  · simp only [natChars, h, if_false, List.mem_reverse, List.mem_map] at hc
    obtain ⟨d, hd, rfl⟩ := hc
    exact isDigit_digitChar (Nat.digits_lt_base (by norm_num) hd)

theorem natVal_replicate_zero (k : Nat) (l : List Char) :
    natVal (List.replicate k '0' ++ l) = natVal l := by
  induction k with
  | zero => simp
  | succ k ih =>
      have : (0 : Nat) * 10 + toDigit '0' = 0 := by decide
      simpa [natVal, List.replicate_succ, this] using ih

theorem isEmpty_false_of_ne_nil {l : List Char} (h : l ≠ []) : l.isEmpty = false := by
  cases l with
  | nil => exact absurd rfl h
  | cons a as => rfl

theorem takeWhile_all {p : Char → Bool} {l : List Char} (h : ∀ c ∈ l, p c = true) :
    l.takeWhile p = l := by
  induction l with
  | nil => rfl
  | cons c cs ih =>
      rw [List.takeWhile_cons_of_pos (h c (by simp))]
      rw [ih fun x hx => h x (by simp [hx])]

theorem dropWhile_all {p : Char → Bool} {l : List Char} (h : ∀ c ∈ l, p c = true) :
    l.dropWhile p = [] := by
  induction l with
  | nil => rfl
  | cons c cs ih =>
      rw [List.dropWhile_cons_of_pos (h c (by simp))]
      exact ih fun x hx => h x (by simp [hx])

theorem takeWhile_append_all {p : Char → Bool} {A l : List Char}
    (hA : ∀ c ∈ A, p c = true) (hl : l.takeWhile p = []) :
    (A ++ l).takeWhile p = A := by
  induction A with
  | nil => rw [List.nil_append]; exact hl
  | cons a as ih =>
      rw [List.cons_append, List.takeWhile_cons_of_pos (hA a (by simp))]
      rw [ih fun x hx => hA x (by simp [hx])]

theorem dropWhile_append_all {p : Char → Bool} {A l : List Char}
    (hA : ∀ c ∈ A, p c = true) :
    (A ++ l).dropWhile p = l.dropWhile p := by
  induction A with
  | nil => simp
  | cons a as ih =>
      rw [List.cons_append, List.dropWhile_cons_of_pos (hA a (by simp))]
      exact ih fun x hx => hA x (by simp [hx])

/-! ## Decimal values

Modelled from the spec: "arbitrary-precision decimal", "decimal-based types
preserve the original number of significant digits", "rendering must be
stable and must not alter precision".  A decimal value is an integer
coefficient together with the number of fractional digits, so that `⟨c, e⟩`
denotes `c / 10 ^ e`; trailing zeros are significant (`12.30 ≠ 12.3` as
representations).  Rendering and parsing follow the plain fixed-point decimal
notation the GPX format uses. -/

structure Dec where
  c : Int
  e : Nat
deriving DecidableEq, Repr

/-- The digit block of `|c|`, left-padded with zeros so a decimal point can be
placed with `e` digits after it (Python renders `Decimal("0.005")` this way). -/
def decDigits (d : Dec) : List Char :=
  List.replicate (d.e + 1 - (natChars d.c.natAbs).length) '0' ++ natChars d.c.natAbs

/-- Canonical text of a decimal value (the model of Python `str(Decimal)` for
plain fixed-point values). -/
def Dec.toChars (d : Dec) : List Char :=
  let ds := decDigits d
  let body :=
    if d.e = 0 then ds
    else ds.take (ds.length - d.e) ++ '.' :: ds.drop (ds.length - d.e)
  if d.c < 0 then '-' :: body else body

/-- `str()` of a decimal value. -/
def Dec.str (d : Dec) : String := String.mk d.toChars

/-- Parse an unsigned decimal literal: digits with at most one point and at
least one digit overall (`"12.345"`, `".5"`, `"5."`, `"7"`). -/
def parseUDec (l : List Char) : Option Dec :=
  let ip := l.takeWhile Char.isDigit
  match l.dropWhile Char.isDigit with
  | [] => if ip.isEmpty then none else some ⟨(natVal ip : Int), 0⟩
  | '.' :: fp =>
      if fp.all Char.isDigit && !(ip.isEmpty && fp.isEmpty) then
        some ⟨(natVal (ip ++ fp) : Int), fp.length⟩
      else none
  | _ => none

/-- Modelled from the spec: conversion of element text to a decimal value
(Python `Decimal(text)`), failing on malformed input. -/
def parseDec (l : List Char) : Option Dec :=
  match l with
  | [] => none
  | c :: rest =>
      if c = '-' then (parseUDec rest).map fun d => ⟨-d.c, d.e⟩
      else if c = '+' then parseUDec rest
      else parseUDec (c :: rest)

theorem decDigits_all (d : Dec) : ∀ c ∈ decDigits d, c.isDigit = true := by
  intro c hc
  simp only [decDigits, List.mem_append, List.mem_replicate] at hc
  rcases hc with ⟨-, rfl⟩ | hc
  · rfl
  · exact natChars_all_digits _ c hc

theorem decDigits_length (d : Dec) : d.e + 1 ≤ (decDigits d).length := by
  have h1 : 1 ≤ (natChars d.c.natAbs).length :=
    List.length_pos.mpr (natChars_ne_nil _)
  simp only [decDigits, List.length_append, List.length_replicate]
  omega

theorem natVal_decDigits (d : Dec) : natVal (decDigits d) = d.c.natAbs := by
  simp [decDigits, natVal_replicate_zero, natVal_natChars]

theorem decDigits_ne_nil (d : Dec) : decDigits d ≠ [] := by
  have := decDigits_length d
  intro h
  rw [h] at this
  simp at this

theorem parseUDec_body (d : Dec) :
    parseUDec (if d.e = 0 then decDigits d
      else (decDigits d).take ((decDigits d).length - d.e) ++
        '.' :: (decDigits d).drop ((decDigits d).length - d.e)) =
      some ⟨(d.c.natAbs : Int), d.e⟩ := by
  have hall := decDigits_all d
  have hlen := decDigits_length d
  by_cases he : d.e = 0
  · rw [if_pos he]
    have ht : (decDigits d).takeWhile Char.isDigit = decDigits d := takeWhile_all hall
    have hd : (decDigits d).dropWhile Char.isDigit = [] := dropWhile_all hall
    simp only [parseUDec, ht, hd]
    have hni : (decDigits d).isEmpty = false := isEmpty_false_of_ne_nil (decDigits_ne_nil d)
    simp [hni, natVal_decDigits, he]
  · simp only [he, if_false]
    set A := (decDigits d).take ((decDigits d).length - d.e) with hA
    set B := (decDigits d).drop ((decDigits d).length - d.e) with hB
    have hAall : ∀ c ∈ A, c.isDigit = true := fun c hc =>
      hall c (List.mem_of_mem_take hc)
    have hBall : ∀ c ∈ B, c.isDigit = true := fun c hc =>
      hall c (List.mem_of_mem_drop hc)
    have hAB : A ++ B = decDigits d := List.take_append_drop _ _
    have hAlen : A.length = (decDigits d).length - d.e := by
      rw [hA, List.length_take]
      omega
    have hBlen : B.length = d.e := by
      rw [hB, List.length_drop]
      omega
    have hAne : A.isEmpty = false := by
      apply isEmpty_false_of_ne_nil
      intro h
      rw [h, List.length_nil] at hAlen
      omega
    have htw : (A ++ '.' :: B).takeWhile Char.isDigit = A :=
      takeWhile_append_all hAall (by simp)
    have hdw : (A ++ '.' :: B).dropWhile Char.isDigit = '.' :: B := by
      rw [dropWhile_append_all hAall]
      simp
    simp only [parseUDec, htw, hdw]
    have hBdig : B.all Char.isDigit = true := List.all_eq_true.mpr hBall
    simp only [hBdig, hAne, Bool.false_and, Bool.not_false, Bool.and_true, if_true]
    have : natVal (A ++ B) = d.c.natAbs := by rw [hAB, natVal_decDigits]
    simp [this, hBlen]

/-- Decimal parse inverts decimal rendering: the model of
`Decimal(str(d)) == d` with the representation (coefficient and exponent)
preserved exactly. -/
theorem parseDec_toChars (d : Dec) : parseDec d.toChars = some d := by
  have hbody := parseUDec_body d
  set body := (if d.e = 0 then decDigits d
      else (decDigits d).take ((decDigits d).length - d.e) ++
        '.' :: (decDigits d).drop ((decDigits d).length - d.e)) with hbdef
  have hhead : ∃ b bs, body = b :: bs ∧ b.isDigit = true := by
    rw [hbdef]
    by_cases he : d.e = 0
    · rw [if_pos he]
      cases hD : decDigits d with
      | nil => exact absurd hD (decDigits_ne_nil d)
      | cons b bs =>
          exact ⟨b, bs, rfl, decDigits_all d b (by rw [hD]; simp)⟩
    · rw [if_neg he]
      have hAlen : 1 ≤ ((decDigits d).take ((decDigits d).length - d.e)).length := by
        rw [List.length_take]
        have := decDigits_length d
        omega
      cases hA : (decDigits d).take ((decDigits d).length - d.e) with
      | nil => rw [hA, List.length_nil] at hAlen; omega
      | cons b bs =>
          refine ⟨b, bs ++ '.' :: (decDigits d).drop ((decDigits d).length - d.e),
            rfl, ?_⟩
          exact decDigits_all d b (List.mem_of_mem_take (by rw [hA]; simp))
  obtain ⟨b, bs, hcons, hbdig⟩ := hhead
  by_cases hc : d.c < 0
  · show parseDec (if d.c < 0 then '-' :: body else body) = some d
    rw [if_pos hc]
    show (if '-' = '-' then (parseUDec body).map fun x => Dec.mk (-x.c) x.e
      else if '-' = '+' then parseUDec body else parseUDec ('-' :: body)) = some d
    rw [if_pos rfl, hbody]
    have habs : -(d.c.natAbs : Int) = d.c := by omega
    exact congrArg some (show Dec.mk (-(d.c.natAbs : Int)) d.e = d by rw [habs])
  · show parseDec (if d.c < 0 then '-' :: body else body) = some d
    rw [if_neg hc, hcons]
    have hbm : ¬ b = '-' := fun h => by subst h; exact absurd hbdig (by decide)
    have hbp : ¬ b = '+' := fun h => by subst h; exact absurd hbdig (by decide)
    show (if b = '-' then (parseUDec bs).map fun x => Dec.mk (-x.c) x.e
      else if b = '+' then parseUDec bs else parseUDec (b :: bs)) = some d
    rw [if_neg hbm, if_neg hbp, ← hcons, hbody]
    have habs : ((d.c.natAbs : Int)) = d.c := by omega
    exact congrArg some (show Dec.mk ((d.c.natAbs : Int)) d.e = d by rw [habs])

/-! ## Python integers (`int(text)` / `str(int)`) -/

/-- Big-endian character rendering of an integer (Python `str(int)`). -/
def intChars (i : Int) : List Char :=
  if i < 0 then '-' :: natChars i.natAbs else natChars i.natAbs

/-- Parse an all-digit block as a natural number. -/
def parseNatChars (l : List Char) : Option Nat :=
  if !l.isEmpty && l.all Char.isDigit then some (natVal l) else none

/-- Modelled from the spec: Python `int(text)` conversion — an optional sign
followed by digits, anything else fails. -/
def parsePyInt (l : List Char) : Option Int :=
  match l with
  | [] => none
  | c :: rest =>
      if c = '-' then (parseNatChars rest).map fun n => -(n : Int)
      else if c = '+' then (parseNatChars rest).map fun n => (n : Int)
      else (parseNatChars (c :: rest)).map fun n => (n : Int)

theorem parseNatChars_natChars (n : Nat) : parseNatChars (natChars n) = some n := by
  have h1 : ¬ (natChars n).isEmpty = true := by
    simpa [List.isEmpty_iff] using natChars_ne_nil n
  have h2 : (natChars n).all Char.isDigit = true :=
    List.all_eq_true.mpr (natChars_all_digits n)
  simp [parseNatChars, h1, h2, natVal_natChars]

theorem parsePyInt_intChars (i : Int) : parsePyInt (intChars i) = some i := by
  by_cases hi : i < 0
  · rw [intChars, if_pos hi]
    show (if '-' = '-' then (parseNatChars (natChars i.natAbs)).map fun n => -(n : Int)
      else if '-' = '+' then (parseNatChars (natChars i.natAbs)).map fun n => (n : Int)
      else (parseNatChars ('-' :: natChars i.natAbs)).map fun n => (n : Int)) = some i
    rw [if_pos rfl, parseNatChars_natChars]
    exact congrArg some (show -((i.natAbs : Int)) = i by omega)
  · rw [intChars, if_neg hi]
    obtain ⟨b, bs, hcons⟩ : ∃ b bs, natChars i.natAbs = b :: bs := by
      cases hb : natChars i.natAbs with
      | nil => exact absurd hb (natChars_ne_nil _)
      | cons b bs => exact ⟨b, bs, rfl⟩
    have hbdig : b.isDigit = true := natChars_all_digits _ b (by rw [hcons]; simp)
    have hbm : ¬ b = '-' := fun h => by subst h; exact absurd hbdig (by decide)
    have hbp : ¬ b = '+' := fun h => by subst h; exact absurd hbdig (by decide)
    rw [hcons]
    show (if b = '-' then (parseNatChars bs).map fun n => -(n : Int)
      else if b = '+' then (parseNatChars bs).map fun n => (n : Int)
      else (parseNatChars (b :: bs)).map fun n => (n : Int)) = some i
    rw [if_neg hbm, if_neg hbp, ← hcons, parseNatChars_natChars]
    exact congrArg some (show ((i.natAbs : Int)) = i by omega)

/-! ## Timestamps

Modelled from the spec: "timestamp (UTC, fractional-second-capable)",
"Timestamp parsing accepts ISO-8601 text, including fractional seconds".
A timestamp is a proleptic-Gregorian calendar date plus a time of day with
microsecond resolution and an optional UTC offset in minutes (`none` models a
naive datetime, `some 0` the UTC zero offset). -/

structure DateTimeRaw where
  year : Nat
  month : Nat
  day : Nat
  hour : Nat
  minute : Nat
  second : Nat
  microsecond : Nat
  tz : Option Int
deriving DecidableEq, Repr

/-- Days in a month of the proleptic Gregorian calendar. -/
def daysInMonth (y m : Nat) : Nat :=
  if m = 2 then (if (y % 4 = 0 ∧ y % 100 ≠ 0) ∨ y % 400 = 0 then 29 else 28)
  else if m = 4 ∨ m = 6 ∨ m = 9 ∨ m = 11 then 30
  else 31

/-- The tz offset bound Python's `timezone` enforces (strictly within ±24 h,
whole minutes). -/
def tzWithin : Option Int → Prop
  | none => True
  | some off => off.natAbs ≤ 1439

instance instDecTzWithin : (o : Option Int) → Decidable (tzWithin o)
  | none => isTrue trivial
  | some off => inferInstanceAs (Decidable (off.natAbs ≤ 1439))

/-- The field ranges Python's `datetime` constructor enforces. -/
def DateTimeRaw.Valid (t : DateTimeRaw) : Prop :=
  1 ≤ t.year ∧ t.year ≤ 9999 ∧ 1 ≤ t.month ∧ t.month ≤ 12 ∧
  1 ≤ t.day ∧ t.day ≤ daysInMonth t.year t.month ∧
  t.hour ≤ 23 ∧ t.minute ≤ 59 ∧ t.second ≤ 59 ∧ t.microsecond ≤ 999999 ∧
  tzWithin t.tz

instance instDecValid : DecidablePred DateTimeRaw.Valid := fun t => by
  unfold DateTimeRaw.Valid
  infer_instance

/-- A valid timestamp (the model of a Python `datetime` instance). -/
def DateTime := {t : DateTimeRaw // t.Valid}

instance : DecidableEq DateTime := fun a b =>
  decidable_of_iff (a.val = b.val) Subtype.ext_iff.symm

/-- Zero-padded fixed-width digit renderings (as Python `%02d`/`%03d`/`%04d`). -/
def pad2 (n : Nat) : List Char := [Nat.digitChar (n / 10 % 10), Nat.digitChar (n % 10)]

def pad3 (n : Nat) : List Char :=
  [Nat.digitChar (n / 100 % 10), Nat.digitChar (n / 10 % 10), Nat.digitChar (n % 10)]

def pad4 (n : Nat) : List Char :=
  [Nat.digitChar (n / 1000 % 10), Nat.digitChar (n / 100 % 10),
   Nat.digitChar (n / 10 % 10), Nat.digitChar (n % 10)]

def pad6 (n : Nat) : List Char := pad3 (n / 1000 % 1000) ++ pad3 (n % 1000)

/-- The precision selector of `datetime.isoformat(timespec=...)`. -/
inductive TimeSpec where
  | seconds
  | milliseconds
  | auto
deriving DecidableEq, Repr

/-- The `YYYY-MM-DDTHH:MM:SS` part of `datetime.isoformat`. -/
def isoBase (t : DateTimeRaw) : List Char :=
  pad4 t.year ++ '-' :: (pad2 t.month ++ '-' :: (pad2 t.day ++ 'T' ::
    (pad2 t.hour ++ ':' :: (pad2 t.minute ++ ':' :: pad2 t.second))))

/-- The fractional-seconds part of `datetime.isoformat` per timespec:
`milliseconds` always prints `.mmm`, `auto` prints `.uuuuuu` only for a
non-zero microsecond, `seconds` prints nothing. -/
def tsFrac (t : DateTimeRaw) : TimeSpec → List Char
  | TimeSpec.seconds => []
  | TimeSpec.milliseconds => '.' :: pad3 (t.microsecond / 1000)
  | TimeSpec.auto => if t.microsecond = 0 then [] else '.' :: pad6 t.microsecond

/-- `±HH:MM` rendering of a UTC offset in minutes. -/
def offsetChars (off : Int) : List Char :=
  (if off < 0 then '-' else '+') :: (pad2 (off.natAbs / 60) ++ ':' :: pad2 (off.natAbs % 60))

/-- The offset suffix of `datetime.isoformat` (empty for a naive datetime). -/
def tzChars (t : DateTimeRaw) : List Char :=
  match t.tz with
  | none => []
  | some off => offsetChars off

/-- Modelled from the spec: `datetime.isoformat(timespec=...)`. -/
def isoformat (t : DateTimeRaw) (ts : TimeSpec) : List Char :=
  isoBase t ++ (tsFrac t ts ++ tzChars t)

/-- Python `str.replace("+00:00", "Z")`: replace every (non-overlapping,
leftmost-first) occurrence of `+00:00` by `Z`. -/
def zReplace : List Char → List Char
  | '+' :: '0' :: '0' :: ':' :: '0' :: '0' :: rest => 'Z' :: zReplace rest
  | c :: rest => c :: zReplace rest
  | [] => []

/-- The timespec `Waypoint._build` selects: `"milliseconds" if
self.time.microsecond else "seconds"`. -/
def buildSpec (t : DateTimeRaw) : TimeSpec :=
  if t.microsecond ≠ 0 then TimeSpec.milliseconds else TimeSpec.seconds

/-- The `time` child text built by `Waypoint._build` (source lines 232-236):
`isoformat` at millisecond precision when the microsecond is non-zero and
second precision otherwise, with `+00:00` replaced by `Z`. -/
def timeTextChars (t : DateTimeRaw) : List Char :=
  zReplace (isoformat t (buildSpec t))

/-- Read one expected literal character. -/
def expectChar (c : Char) (l : List Char) : Option (List Char) :=
  match l with
  | x :: rest => if x = c then some rest else none
  | [] => none

/-- Read exactly two digits. -/
def parse2 : List Char → Option (Nat × List Char)
  | a :: b :: rest =>
      if a.isDigit then
        if b.isDigit then some (toDigit a * 10 + toDigit b, rest) else none
      else none
  | _ => none

/-- Read exactly four digits. -/
def parse4 : List Char → Option (Nat × List Char)
  | a :: b :: c :: d :: rest =>
      if a.isDigit then
        if b.isDigit then
          if c.isDigit then
            if d.isDigit then
              some (((toDigit a * 10 + toDigit b) * 10 + toDigit c) * 10 + toDigit d, rest)
            else none
          else none
        else none
      else none
  | _ => none

/-- Optional fractional seconds: a point followed by one to six digits,
scaled to microseconds (as `dateutil` does); absent means zero. -/
def parseFracOpt : List Char → Option (Nat × List Char)
  | '.' :: rest =>
      let ds := rest.takeWhile Char.isDigit
      if 1 ≤ ds.length ∧ ds.length ≤ 6 then
        some (natVal ds * 10 ^ (6 - ds.length), rest.dropWhile Char.isDigit)
      else none
  | l => some (0, l)

/-- Optional UTC offset: nothing (naive), `Z` (zero offset), or `±HH:MM`. -/
def parseTZ : List Char → Option (Option Int × List Char)
  | [] => some (none, [])
  | 'Z' :: rest => some (some 0, rest)
  | '+' :: rest =>
      (match parse2 rest with
       | none => none
       | some (hh, r1) =>
         match expectChar ':' r1 with
         | none => none
         | some r2 =>
           match parse2 r2 with
           | none => none
           | some (mm, r3) => some (some ((hh : Int) * 60 + mm), r3))
  | '-' :: rest =>
      (match parse2 rest with
       | none => none
       | some (hh, r1) =>
         match expectChar ':' r1 with
         | none => none
         | some r2 =>
           match parse2 r2 with
           | none => none
           | some (mm, r3) => some (some (-((hh : Int) * 60 + mm)), r3))
  | _ => none

/-- Modelled from the spec: `dateutil.parser.isoparse` on the ISO-8601
date-time shapes this binding emits and consumes —
`YYYY-MM-DDTHH:MM:SS[.frac][Z|±HH:MM]`. -/
def isoparseRaw (l : List Char) : Option DateTimeRaw :=
  match parse4 l with
  | none => none
  | some (y, l1) =>
  match expectChar '-' l1 with
  | none => none
  | some l2 =>
  match parse2 l2 with
  | none => none
  | some (mo, l3) =>
  match expectChar '-' l3 with
  | none => none
  | some l4 =>
  match parse2 l4 with
  | none => none
  | some (d, l5) =>
  match expectChar 'T' l5 with
  | none => none
  | some l6 =>
  match parse2 l6 with
  | none => none
  | some (h, l7) =>
  match expectChar ':' l7 with
  | none => none
  | some l8 =>
  match parse2 l8 with
  | none => none
  | some (mi, l9) =>
  match expectChar ':' l9 with
  | none => none
  | some l10 =>
  match parse2 l10 with
  | none => none
  | some (s, l11) =>
  match parseFracOpt l11 with
  | none => none
  | some (us, l12) =>
  match parseTZ l12 with
  | none => none
  | some (tzv, l13) =>
  if l13.isEmpty then some ⟨y, mo, d, h, mi, s, us, tzv⟩ else none

/-- `isoparse` including the range validation Python's `datetime` constructor
performs. -/
def isoparseChars (l : List Char) : Option DateTime :=
  match isoparseRaw l with
  | none => none
  | some t => if h : t.Valid then some ⟨t, h⟩ else none

/-- Truncate the microsecond to the millisecond the builder renders. -/
def truncMsRaw (t : DateTimeRaw) : DateTimeRaw :=
  { t with microsecond := t.microsecond / 1000 * 1000 }

theorem truncMsRaw_valid {t : DateTimeRaw} (h : t.Valid) : (truncMsRaw t).Valid := by
  obtain ⟨h1, h2, h3, h4, h5, h6, h7, h8, h9, h10, h11⟩ := h
  exact ⟨h1, h2, h3, h4, h5, h6, h7, h8, h9, by simp only [truncMsRaw]; omega, h11⟩

/-- A valid timestamp truncated to the rendered millisecond precision. -/
def DateTime.truncMs (t : DateTime) : DateTime :=
  ⟨truncMsRaw t.val, truncMsRaw_valid t.property⟩

theorem daysInMonth_le (y m : Nat) : daysInMonth y m ≤ 31 := by
  unfold daysInMonth
  split_ifs <;> omega

theorem plus_ne_digitChar {x : Nat} (h : x < 10) : ¬ ('+' : Char) = Nat.digitChar x := by
  interval_cases x <;> decide

theorem plus_not_mem_pad2 (n : Nat) : ('+' : Char) ∉ pad2 n := by
  intro h
  simp only [pad2, List.mem_cons, List.not_mem_nil, or_false] at h
  rcases h with h | h
  · exact plus_ne_digitChar (Nat.mod_lt _ (by norm_num)) h
  · exact plus_ne_digitChar (Nat.mod_lt _ (by norm_num)) h

theorem plus_not_mem_pad3 (n : Nat) : ('+' : Char) ∉ pad3 n := by
  intro h
  simp only [pad3, List.mem_cons, List.not_mem_nil, or_false] at h
  rcases h with h | h | h
  · exact plus_ne_digitChar (Nat.mod_lt _ (by norm_num)) h
  · exact plus_ne_digitChar (Nat.mod_lt _ (by norm_num)) h
  · exact plus_ne_digitChar (Nat.mod_lt _ (by norm_num)) h

theorem plus_not_mem_pad4 (n : Nat) : ('+' : Char) ∉ pad4 n := by
  intro h
  simp only [pad4, List.mem_cons, List.not_mem_nil, or_false] at h
  rcases h with h | h | h | h
  · exact plus_ne_digitChar (Nat.mod_lt _ (by norm_num)) h
  · exact plus_ne_digitChar (Nat.mod_lt _ (by norm_num)) h
  · exact plus_ne_digitChar (Nat.mod_lt _ (by norm_num)) h
  · exact plus_ne_digitChar (Nat.mod_lt _ (by norm_num)) h

theorem plus_not_mem_pad6 (n : Nat) : ('+' : Char) ∉ pad6 n := by
  intro h
  rcases List.mem_append.mp h with h | h
  · exact plus_not_mem_pad3 _ h
  · exact plus_not_mem_pad3 _ h

theorem plus_not_mem_isoBase (t : DateTimeRaw) : ('+' : Char) ∉ isoBase t := by
  intro h
  simp only [isoBase, List.mem_append, List.mem_cons] at h
  rcases h with h | h | h | h | h | h | h | h | h | h | h
  · exact plus_not_mem_pad4 _ h
  · exact absurd h (by decide)
  · exact plus_not_mem_pad2 _ h
  · exact absurd h (by decide)
  · exact plus_not_mem_pad2 _ h
  · exact absurd h (by decide)
  · exact plus_not_mem_pad2 _ h
  · exact absurd h (by decide)
  · exact plus_not_mem_pad2 _ h
  · exact absurd h (by decide)
  · exact plus_not_mem_pad2 _ h

theorem plus_not_mem_tsFrac (t : DateTimeRaw) (ts : TimeSpec) :
    ('+' : Char) ∉ tsFrac t ts := by
  intro h
  cases ts with
  | seconds => simp [tsFrac] at h
  | milliseconds =>
      simp only [tsFrac, List.mem_cons] at h
      rcases h with h | h
      · exact absurd h (by decide)
      · exact plus_not_mem_pad3 _ h
  | auto =>
      simp only [tsFrac] at h
      by_cases h0 : t.microsecond = 0
      · rw [if_pos h0] at h
        simp at h
      · rw [if_neg h0] at h
        simp only [List.mem_cons] at h
        rcases h with h | h
        · exact absurd h (by decide)
        · exact plus_not_mem_pad6 _ h

/-! `zReplace` resolution lemmas. -/

theorem zReplace_eq_self {l : List Char} (h : ('+' : Char) ∉ l) : zReplace l = l := by
  induction l with
  | nil => rfl
  | cons c cs ih =>
      have hc : ¬ c = '+' := fun hh => h (by rw [hh]; exact List.mem_cons_self _ _)
      rw [zReplace.eq_def]
      split
      · rename_i heq
        injection heq with h1 _
        exact absurd h1 hc
      · rename_i c0 cs0 heq
        injection heq with h1 h2
        rw [← h1, ← h2, ih fun hm => h (List.mem_cons_of_mem _ hm)]
      · rename_i heq
        exact absurd heq (List.cons_ne_nil _ _)

theorem zReplace_append {s r : List Char} (h : ('+' : Char) ∉ s) :
    zReplace (s ++ r) = s ++ zReplace r := by
  induction s with
  | nil => rfl
  | cons c cs ih =>
      have hc : ¬ c = '+' := fun hh => h (by rw [hh]; exact List.mem_cons_self _ _)
      rw [List.cons_append, zReplace.eq_def]
      split
      · rename_i heq
        injection heq with h1 _
        exact absurd h1 hc
      · rename_i c0 cs0 heq
        injection heq with h1 h2
        rw [← h1, ← h2, ih fun hm => h (List.mem_cons_of_mem _ hm)]
        rfl
      · rename_i heq
        exact absurd heq (List.cons_ne_nil _ _)

theorem zReplace_plus {a b c d : Char} (rest : List Char)
    (h : ¬(a = '0' ∧ b = '0' ∧ c = '0' ∧ d = '0')) :
    zReplace ('+' :: a :: b :: ':' :: c :: d :: rest) =
      '+' :: zReplace (a :: b :: ':' :: c :: d :: rest) := by
  rw [zReplace.eq_def]
  split
  · rename_i heq
    injection heq with _ h2
    injection h2 with ha h3
    injection h3 with hb h4
    injection h4 with _ h5
    injection h5 with hcc h6
    injection h6 with hd _
    exact absurd ⟨ha, hb, hcc, hd⟩ h
  · rename_i c0 cs0 heq
    injection heq with h1 h2
    rw [← h1, ← h2]
  · rename_i heq
    exact absurd heq (List.cons_ne_nil _ _)

theorem digitChar_eq_zero_iff {d : Nat} (h : d < 10) :
    Nat.digitChar d = '0' ↔ d = 0 := by
  interval_cases d <;> decide

theorem timeTextChars_unfold (t : DateTimeRaw) :
    timeTextChars t = zReplace (isoBase t ++ (tsFrac t (buildSpec t) ++ tzChars t)) := rfl

/-- `timeTextChars` on a naive timestamp: no offset designator at all. -/
theorem timeTextChars_none {t : DateTimeRaw} (h : t.tz = none) :
    timeTextChars t = isoBase t ++ tsFrac t (buildSpec t) := by
  have hfree : ('+' : Char) ∉ isoBase t ++ (tsFrac t (buildSpec t) ++ ([] : List Char)) := by
    intro hm
    rcases List.mem_append.mp hm with hm | hm
    · exact plus_not_mem_isoBase t hm
    · rcases List.mem_append.mp hm with hm | hm
      · exact plus_not_mem_tsFrac t _ hm
      · simp at hm
  have htzc : tzChars t = [] := by simp [tzChars, h]
  rw [timeTextChars_unfold, htzc, zReplace_eq_self hfree, List.append_nil]

/-- `timeTextChars` on a UTC (zero-offset) timestamp: the numeric `+00:00` is
replaced by the single designator `Z`. -/
theorem timeTextChars_utc {t : DateTimeRaw} (h : t.tz = some 0) :
    timeTextChars t = isoBase t ++ (tsFrac t (buildSpec t) ++ ['Z']) := by
  have hfree : ('+' : Char) ∉ isoBase t ++ tsFrac t (buildSpec t) := by
    intro hm
    rcases List.mem_append.mp hm with hm | hm
    · exact plus_not_mem_isoBase t hm
    · exact plus_not_mem_tsFrac t _ hm
  have hoff : tzChars t = ['+', '0', '0', ':', '0', '0'] := by
    simp [tzChars, h]
    rfl
  rw [timeTextChars_unfold, hoff, ← List.append_assoc, zReplace_append hfree,
    List.append_assoc]
  rfl

/-- `timeTextChars` on a non-zero offset: the numeric `±HH:MM` stays. -/
theorem timeTextChars_offset {t : DateTimeRaw} {off : Int} (h : t.tz = some off)
    (h0 : off ≠ 0) (hb : off.natAbs ≤ 1439) :
    timeTextChars t = isoBase t ++ (tsFrac t (buildSpec t) ++ offsetChars off) := by
  have hfree : ('+' : Char) ∉ isoBase t ++ tsFrac t (buildSpec t) := by
    intro hm
    rcases List.mem_append.mp hm with hm | hm
    · exact plus_not_mem_isoBase t hm
    · exact plus_not_mem_tsFrac t _ hm
  have hoff : tzChars t = offsetChars off := by simp [tzChars, h]
  by_cases hneg : off < 0
  · have hofffree : ('+' : Char) ∉ offsetChars off := by
      intro hm
      rw [offsetChars, if_pos hneg] at hm
      rcases List.mem_cons.mp hm with hm | hm
      · exact absurd hm (by decide)
      · rcases List.mem_append.mp hm with hm | hm
        · exact plus_not_mem_pad2 _ hm
        · rcases List.mem_cons.mp hm with hm | hm
          · exact absurd hm (by decide)
          · exact plus_not_mem_pad2 _ hm
    have hall : ('+' : Char) ∉ isoBase t ++ (tsFrac t (buildSpec t) ++ offsetChars off) := by
      intro hm
      rcases List.mem_append.mp hm with hm | hm
      · exact plus_not_mem_isoBase t hm
      · rcases List.mem_append.mp hm with hm | hm
        · exact plus_not_mem_tsFrac t _ hm
        · exact hofffree hm
    rw [timeTextChars_unfold, hoff, zReplace_eq_self hall]
  · have hpos : offsetChars off = '+' :: Nat.digitChar (off.natAbs / 60 / 10 % 10) ::
        Nat.digitChar (off.natAbs / 60 % 10) :: ':' ::
        Nat.digitChar (off.natAbs % 60 / 10 % 10) ::
        Nat.digitChar (off.natAbs % 60 % 10) :: [] := by
      rw [offsetChars, if_neg hneg]
      rfl
    have hnz : ¬(Nat.digitChar (off.natAbs / 60 / 10 % 10) = '0' ∧
        Nat.digitChar (off.natAbs / 60 % 10) = '0' ∧
        Nat.digitChar (off.natAbs % 60 / 10 % 10) = '0' ∧
        Nat.digitChar (off.natAbs % 60 % 10) = '0') := by
      rintro ⟨ha, hbb, hcc, hdd⟩
      rw [digitChar_eq_zero_iff (Nat.mod_lt _ (by norm_num))] at ha hbb hcc hdd
      omega
    rw [timeTextChars_unfold, hoff, hpos, ← List.append_assoc,
      zReplace_append hfree, zReplace_plus _ hnz,
      zReplace_eq_self, List.append_assoc, ← hpos]
    intro hm
    rcases List.mem_cons.mp hm with hm | hm
    · exact plus_ne_digitChar (Nat.mod_lt _ (by norm_num)) hm
    rcases List.mem_cons.mp hm with hm | hm
    · exact plus_ne_digitChar (Nat.mod_lt _ (by norm_num)) hm
    rcases List.mem_cons.mp hm with hm | hm
    · exact absurd hm (by decide)
    rcases List.mem_cons.mp hm with hm | hm
    · exact plus_ne_digitChar (Nat.mod_lt _ (by norm_num)) hm
    rcases List.mem_cons.mp hm with hm | hm
    · exact plus_ne_digitChar (Nat.mod_lt _ (by norm_num)) hm
    · simp at hm

/-! Parsing the rendered pieces back. -/

theorem expectChar_self (c : Char) (rest : List Char) :
    expectChar c (c :: rest) = some rest := by
  show (if c = c then some rest else none) = some rest
  rw [if_pos rfl]

theorem parse2_pad2 {n : Nat} (h : n < 100) (rest : List Char) :
    parse2 (pad2 n ++ rest) = some (n, rest) := by
  have h1 : n / 10 % 10 < 10 := Nat.mod_lt _ (by norm_num)
  have h2 : n % 10 < 10 := Nat.mod_lt _ (by norm_num)
  show parse2 (Nat.digitChar (n / 10 % 10) :: Nat.digitChar (n % 10) :: rest) =
    some (n, rest)
  simp only [parse2]
  rw [if_pos (isDigit_digitChar h1), if_pos (isDigit_digitChar h2),
    toDigit_digitChar h1, toDigit_digitChar h2]
  exact congrArg (fun x => some (x, rest)) (by omega)

theorem parse2_pad2_nil {n : Nat} (h : n < 100) : parse2 (pad2 n) = some (n, []) := by
  have := parse2_pad2 h []
  rwa [List.append_nil] at this

theorem parse4_pad4 {n : Nat} (h : n < 10000) (rest : List Char) :
    parse4 (pad4 n ++ rest) = some (n, rest) := by
  have h1 : n / 1000 % 10 < 10 := Nat.mod_lt _ (by norm_num)
  have h2 : n / 100 % 10 < 10 := Nat.mod_lt _ (by norm_num)
  have h3 : n / 10 % 10 < 10 := Nat.mod_lt _ (by norm_num)
  have h4 : n % 10 < 10 := Nat.mod_lt _ (by norm_num)
  show parse4 (Nat.digitChar (n / 1000 % 10) :: Nat.digitChar (n / 100 % 10) ::
    Nat.digitChar (n / 10 % 10) :: Nat.digitChar (n % 10) :: rest) = some (n, rest)
  simp only [parse4]
  rw [if_pos (isDigit_digitChar h1), if_pos (isDigit_digitChar h2),
    if_pos (isDigit_digitChar h3), if_pos (isDigit_digitChar h4),
    toDigit_digitChar h1, toDigit_digitChar h2, toDigit_digitChar h3,
    toDigit_digitChar h4]
  exact congrArg (fun x => some (x, rest)) (by omega)

theorem pad3_all_digits (n : Nat) : ∀ c ∈ pad3 n, c.isDigit = true := by
  intro c hc
  simp only [pad3, List.mem_cons, List.not_mem_nil, or_false] at hc
  rcases hc with h | h | h
  · rw [h]; exact isDigit_digitChar (Nat.mod_lt _ (by norm_num))
  · rw [h]; exact isDigit_digitChar (Nat.mod_lt _ (by norm_num))
  · rw [h]; exact isDigit_digitChar (Nat.mod_lt _ (by norm_num))

theorem natVal_pad3 {k : Nat} (h : k < 1000) : natVal (pad3 k) = k := by
  have h1 : k / 100 % 10 < 10 := Nat.mod_lt _ (by norm_num)
  have h2 : k / 10 % 10 < 10 := Nat.mod_lt _ (by norm_num)
  have h3 : k % 10 < 10 := Nat.mod_lt _ (by norm_num)
  simp only [pad3, natVal, List.foldl_cons, List.foldl_nil,
    toDigit_digitChar h1, toDigit_digitChar h2, toDigit_digitChar h3]
  omega

theorem dropWhile_eq_self_of_takeWhile_nil {p : Char → Bool} {l : List Char}
    (h : l.takeWhile p = []) : l.dropWhile p = l := by
  cases l with
  | nil => rfl
  | cons c cs =>
      by_cases hp : p c = true
      · rw [List.takeWhile_cons_of_pos hp] at h
        exact absurd h (List.cons_ne_nil _ _)
      · exact List.dropWhile_cons_of_neg (by simpa using hp)

theorem parseFracOpt_not_frac {l : List Char} (hdot : ∀ r, l ≠ '.' :: r) :
    parseFracOpt l = some (0, l) := by
  cases l with
  | nil => rfl
  | cons c cs =>
      rw [parseFracOpt.eq_def]
      split
      · rename_i rest heq
        exact absurd heq (hdot _)
      · rfl

theorem parseFracOpt_tsFrac (t : DateTimeRaw) (hus : t.microsecond ≤ 999999)
    {rest : List Char} (htw : rest.takeWhile Char.isDigit = [])
    (hdot : ∀ r, rest ≠ '.' :: r) :
    parseFracOpt (tsFrac t (buildSpec t) ++ rest) =
      some (t.microsecond / 1000 * 1000, rest) := by
  by_cases h0 : t.microsecond = 0
  · have hb : buildSpec t = TimeSpec.seconds := by simp [buildSpec, h0]
    rw [hb]
    show parseFracOpt (([] : List Char) ++ rest) = _
    rw [List.nil_append, parseFracOpt_not_frac hdot, h0]
  · have hb : buildSpec t = TimeSpec.milliseconds := by simp [buildSpec, h0]
    rw [hb]
    have hk : t.microsecond / 1000 < 1000 := by omega
    have htake : (pad3 (t.microsecond / 1000) ++ rest).takeWhile Char.isDigit =
        pad3 (t.microsecond / 1000) :=
      takeWhile_append_all (pad3_all_digits _) htw
    have hdrop : (pad3 (t.microsecond / 1000) ++ rest).dropWhile Char.isDigit = rest := by
      rw [dropWhile_append_all (pad3_all_digits _),
        dropWhile_eq_self_of_takeWhile_nil htw]
    show parseFracOpt ('.' :: (pad3 (t.microsecond / 1000) ++ rest)) = _
    simp only [parseFracOpt, htake, hdrop]
    have hlen : (pad3 (t.microsecond / 1000)).length = 3 := rfl
    rw [hlen, if_pos (by norm_num), natVal_pad3 hk]
    exact congrArg (fun x => some (x, rest)) (by norm_num)

theorem parseTZ_nil : parseTZ [] = some (none, []) := rfl

theorem parseTZ_z : parseTZ ['Z'] = some (some 0, []) := rfl

theorem parseTZ_offsetChars (off : Int) (hb : off.natAbs ≤ 1439) :
    parseTZ (offsetChars off) = some (some off, []) := by
  have hh : off.natAbs / 60 < 100 := by omega
  have hm : off.natAbs % 60 < 100 := by omega
  by_cases hneg : off < 0
  · show parseTZ ((if off < 0 then '-' else '+') ::
      (pad2 (off.natAbs / 60) ++ ':' :: pad2 (off.natAbs % 60))) = _
    rw [if_pos hneg]
    simp only [parseTZ, parse2_pad2 hh, expectChar_self, parse2_pad2_nil hm]
    exact congrArg (fun x => some (some x, ([] : List Char))) (by omega)
  · show parseTZ ((if off < 0 then '-' else '+') ::
      (pad2 (off.natAbs / 60) ++ ':' :: pad2 (off.natAbs % 60))) = _
    rw [if_neg hneg]
    simp only [parseTZ, parse2_pad2 hh, expectChar_self, parse2_pad2_nil hm]
    exact congrArg (fun x => some (some x, ([] : List Char))) (by omega)

theorem offsetChars_takeWhile (off : Int) :
    (offsetChars off).takeWhile Char.isDigit = [] := by
  unfold offsetChars
  by_cases hneg : off < 0
  · rw [if_pos hneg]
    exact List.takeWhile_cons_of_neg (by decide)
  · rw [if_neg hneg]
    exact List.takeWhile_cons_of_neg (by decide)

theorem offsetChars_ne_dot (off : Int) : ∀ r, offsetChars off ≠ '.' :: r := by
  intro r
  unfold offsetChars
  by_cases hneg : off < 0
  · rw [if_pos hneg]
    intro h
    injection h with h1 _
    exact absurd h1 (by decide)
  · rw [if_neg hneg]
    intro h
    injection h with h1 _
    exact absurd h1 (by decide)

/-- Parsing the rendered waypoint time text, piece by piece, once the offset
tail is fixed. -/
theorem isoparseRaw_pieces (t : DateTimeRaw) (hy : t.year < 10000)
    (hmo : t.month < 100) (hda : t.day < 100) (hho : t.hour < 100)
    (hmi : t.minute < 100) (hse : t.second < 100) (hus : t.microsecond ≤ 999999)
    (tzrest : List Char) (tzv : Option Int)
    (htz : parseTZ tzrest = some (tzv, []))
    (htw : tzrest.takeWhile Char.isDigit = [])
    (hdot : ∀ r, tzrest ≠ '.' :: r) :
    isoparseRaw (isoBase t ++ (tsFrac t (buildSpec t) ++ tzrest)) =
      some ⟨t.year, t.month, t.day, t.hour, t.minute, t.second,
        t.microsecond / 1000 * 1000, tzv⟩ := by
  simp only [isoBase, List.append_assoc, List.cons_append]
  simp only [isoparseRaw, parse4_pad4 hy, expectChar_self, parse2_pad2 hmo,
    parse2_pad2 hda, parse2_pad2 hho, parse2_pad2 hmi, parse2_pad2 hse,
    parseFracOpt_tsFrac t hus htw hdot, htz, List.isEmpty_nil, if_true]

theorem truncMsRaw_eq (t : DateTimeRaw) (tzv : Option Int) (h : t.tz = tzv) :
    (⟨t.year, t.month, t.day, t.hour, t.minute, t.second,
      t.microsecond / 1000 * 1000, tzv⟩ : DateTimeRaw) = truncMsRaw t := by
  rw [← h]
  rfl

/-- The time text the builder renders parses back to the same timestamp
truncated at the rendered (millisecond) precision. -/
theorem isoparseRaw_timeText {t : DateTimeRaw} (hv : t.Valid) :
    isoparseRaw (timeTextChars t) = some (truncMsRaw t) := by
  obtain ⟨h1, h2, h3, h4, h5, h6, h7, h8, h9, h10, h11⟩ := hv
  have hy : t.year < 10000 := by omega
  have hmo : t.month < 100 := by omega
  have hda : t.day < 100 := by
    have := daysInMonth_le t.year t.month
    omega
  have hho : t.hour < 100 := by omega
  have hmi : t.minute < 100 := by omega
  have hse : t.second < 100 := by omega
  cases htz : t.tz with
  | none =>
      rw [timeTextChars_none htz,
        show isoBase t ++ tsFrac t (buildSpec t) =
          isoBase t ++ (tsFrac t (buildSpec t) ++ []) by rw [List.append_nil],
        isoparseRaw_pieces t hy hmo hda hho hmi hse h10 [] none parseTZ_nil rfl
          (fun r h => List.noConfusion h),
        truncMsRaw_eq t none htz]
  | some off =>
      have hoffb : off.natAbs ≤ 1439 := by
        rw [htz] at h11
        exact h11
      by_cases h0 : off = 0
      · subst h0
        rw [timeTextChars_utc htz,
          isoparseRaw_pieces t hy hmo hda hho hmi hse h10 ['Z'] (some 0) parseTZ_z
            rfl (fun r h => by injection h with h1 _; exact absurd h1 (by decide)),
          truncMsRaw_eq t (some 0) htz]
      · rw [timeTextChars_offset htz h0 hoffb,
          isoparseRaw_pieces t hy hmo hda hho hmi hse h10 (offsetChars off) (some off)
            (parseTZ_offsetChars off hoffb) (offsetChars_takeWhile off)
            (offsetChars_ne_dot off),
          truncMsRaw_eq t (some off) htz]

/-- `isoparse` inverts the builder's time rendering, up to millisecond
truncation, including the range re-validation. -/
theorem isoparseChars_timeText (t : DateTime) :
    isoparseChars (timeTextChars t.val) = some t.truncMs := by
  unfold isoparseChars
  rw [isoparseRaw_timeText t.property]
  exact dif_pos (truncMsRaw_valid t.property)

/-! ## Validated scalar types

The repository `types` module is not under `src/`; these are modelled from
the spec (§3, §4.1): each type is constructed from a text token, failing on
malformed or out-of-range input, and renders back canonically. -/

/-- Modelled from the spec: Latitude — decimal degrees, −90 ≤ v ≤ 90. -/
def latOK (d : Dec) : Prop := -(90 : Int) * 10 ^ d.e ≤ d.c ∧ d.c ≤ 90 * 10 ^ d.e

instance : DecidablePred latOK := fun d => by unfold latOK; infer_instance

def Latitude := {d : Dec // latOK d}

instance : DecidableEq Latitude := fun a b =>
  decidable_of_iff (a.val = b.val) Subtype.ext_iff.symm

/-- Modelled from the spec: Longitude — decimal degrees, −180 ≤ v ≤ 180. -/
def lonOK (d : Dec) : Prop := -(180 : Int) * 10 ^ d.e ≤ d.c ∧ d.c ≤ 180 * 10 ^ d.e

instance : DecidablePred lonOK := fun d => by unfold lonOK; infer_instance

def Longitude := {d : Dec // lonOK d}

instance : DecidableEq Longitude := fun a b =>
  decidable_of_iff (a.val = b.val) Subtype.ext_iff.symm

/-- Modelled from the spec: Degrees — decimal degrees, 0 ≤ v < 360. -/
def degOK (d : Dec) : Prop := 0 ≤ d.c ∧ d.c < 360 * 10 ^ d.e

instance : DecidablePred degOK := fun d => by unfold degOK; infer_instance

def Degrees := {d : Dec // degOK d}

instance : DecidableEq Degrees := fun a b =>
  decidable_of_iff (a.val = b.val) Subtype.ext_iff.symm

/-- Modelled from the spec: the Fix vocabulary {none, 2d, 3d, dgps, pps},
matched exactly and case-sensitively. -/
def fixTokens : List String := ["none", "2d", "3d", "dgps", "pps"]

def Fix := {s : String // s ∈ fixTokens}

instance : DecidableEq Fix := fun a b =>
  decidable_of_iff (a.val = b.val) Subtype.ext_iff.symm

/-- Modelled from the spec: DGPSStation — integer in [0, 1023]. -/
def dgpsOK (i : Int) : Prop := 0 ≤ i ∧ i ≤ 1023

instance : DecidablePred dgpsOK := fun i => by unfold dgpsOK; infer_instance

def DGPSStation := {i : Int // dgpsOK i}

instance : DecidableEq DGPSStation := fun a b =>
  decidable_of_iff (a.val = b.val) Subtype.ext_iff.symm

/-- Error taxonomy (spec §7): a scalar validation failure carries the field
name and the raw text; the geodesy boundary cases surface as their own
errors. -/
inductive GPXError where
  | validation (field : String) (raw : Option String)
  | zeroDivision
  | naiveAwareMix
deriving DecidableEq, Repr

/-! Fallible text conversions, from the optional text an element accessor
returns (`None` text fails the conversion, as in Python). -/

def convDec (field : String) (txt : Option String) : Except GPXError Dec :=
  match txt with
  | none => Except.error (GPXError.validation field none)
  | some s =>
      match parseDec s.toList with
      | none => Except.error (GPXError.validation field (some s))
      | some d => Except.ok d

def convLat (txt : Option String) : Except GPXError Latitude :=
  match txt with
  | none => Except.error (GPXError.validation "lat" none)
  | some s =>
      match parseDec s.toList with
      | none => Except.error (GPXError.validation "lat" (some s))
      | some d =>
          if h : latOK d then Except.ok ⟨d, h⟩
          else Except.error (GPXError.validation "lat" (some s))

def convLon (txt : Option String) : Except GPXError Longitude :=
  match txt with
  | none => Except.error (GPXError.validation "lon" none)
  | some s =>
      match parseDec s.toList with
      | none => Except.error (GPXError.validation "lon" (some s))
      | some d =>
          if h : lonOK d then Except.ok ⟨d, h⟩
          else Except.error (GPXError.validation "lon" (some s))

def convDegrees (txt : Option String) : Except GPXError Degrees :=
  match txt with
  | none => Except.error (GPXError.validation "magvar" none)
  | some s =>
      match parseDec s.toList with
      | none => Except.error (GPXError.validation "magvar" (some s))
      | some d =>
          if h : degOK d then Except.ok ⟨d, h⟩
          else Except.error (GPXError.validation "magvar" (some s))

def convTime (txt : Option String) : Except GPXError DateTime :=
  match txt with
  | none => Except.error (GPXError.validation "time" none)
  | some s =>
      match isoparseChars s.toList with
      | none => Except.error (GPXError.validation "time" (some s))
      | some t => Except.ok t

def convFix (txt : Option String) : Except GPXError Fix :=
  match txt with
  | none => Except.error (GPXError.validation "fix" none)
  | some s =>
      if h : s ∈ fixTokens then Except.ok ⟨s, h⟩
      else Except.error (GPXError.validation "fix" (some s))

def convSat (txt : Option String) : Except GPXError Int :=
  match txt with
  | none => Except.error (GPXError.validation "sat" none)
  | some s =>
      match parsePyInt s.toList with
      | none => Except.error (GPXError.validation "sat" (some s))
      | some i => Except.ok i

def convDGPS (txt : Option String) : Except GPXError DGPSStation :=
  match txt with
  | none => Except.error (GPXError.validation "dgpsid" none)
  | some s =>
      match parsePyInt s.toList with
      | none => Except.error (GPXError.validation "dgpsid" (some s))
      | some i =>
          if h : dgpsOK i then Except.ok ⟨i, h⟩
          else Except.error (GPXError.validation "dgpsid" (some s))

/-! ## The element-tree contract

Modelled from the spec (§4.2): attributes by name, first child by tag,
children by tag in document order, child creation with text. -/

structure XMLElement where
  tag : String
  attrs : List (String × String)
  text : Option String
  children : List XMLElement

/-- `element.get(name)`. -/
def getAttr (e : XMLElement) (k : String) : Option String :=
  (e.attrs.find? (fun p => p.1 == k)).map (fun p => p.2)

/-- `element.find(tag)`: first direct child with the tag. -/
def findChild (e : XMLElement) (t : String) : Option XMLElement :=
  e.children.find? (fun c => c.tag == t)

/-- `element.iterfind(tag)`: all direct children with the tag, in order. -/
def iterFind (e : XMLElement) (t : String) : List XMLElement :=
  e.children.filter (fun c => c.tag == t)

/-- A child node with text content only. -/
def mkChild (tag : String) (s : String) : XMLElement := ⟨tag, [], some s, []⟩

/-- The child list an optional field contributes to the built element: no
node at all when unset, one text child when set. -/
def optChild (tag : String) (txt : Option String) : List XMLElement :=
  (txt.map (mkChild tag)).toList

/-! ## The Link sub-entity

Modelled from the spec: a pair of href (required attribute) and an optional
text label child, delegated to for the repeated `link` children. -/

structure Link where
  href : String
  text : Option String
deriving DecidableEq, Repr

def Link.parse (e : XMLElement) : Except GPXError Link :=
  match getAttr e "href" with
  | none => Except.error (GPXError.validation "link.href" none)
  | some h => Except.ok ⟨h, (findChild e "text").bind (fun c => c.text)⟩

def Link.build (l : Link) : XMLElement :=
  ⟨"link", [("href", l.href)], none, optChild "text" l.text⟩

/-! ## The Waypoint entity (`src/gpx/waypoint.py`) -/

structure Waypoint where
  lat : Latitude
  lon : Longitude
  ele : Option Dec
  time : Option DateTime
  magvar : Option Degrees
  geoidheight : Option Dec
  name : Option String
  cmt : Option String
  desc : Option String
  src : Option String
  links : List Link
  sym : Option String
  type : Option String
  fix : Option Fix
  sat : Option Int
  hdop : Option Dec
  vdop : Option Dec
  pdop : Option Dec
  ageofdgpsdata : Option Dec
  dgpsid : Option DGPSStation
deriving DecidableEq

/-- `Waypoint._build` (source lines 223-303): root node with the given tag
(the source default is `"wpt"`), `lat`/`lon` attributes always set, one child
per set optional field in source order, one `link` child per stored link. -/
def Waypoint.build (w : Waypoint) (tag : String) : XMLElement :=
  ⟨tag, [("lat", w.lat.val.str), ("lon", w.lon.val.str)], none,
    optChild "ele" (w.ele.map Dec.str) ++
    (optChild "time" (w.time.map fun t => String.mk (timeTextChars t.val)) ++
    (optChild "magvar" (w.magvar.map fun d => d.val.str) ++
    (optChild "geoidheight" (w.geoidheight.map Dec.str) ++
    (optChild "name" w.name ++
    (optChild "cmt" w.cmt ++
    (optChild "desc" w.desc ++
    (optChild "src" w.src ++
    (w.links.map Link.build ++
    (optChild "sym" w.sym ++
    (optChild "type" w.type ++
    (optChild "fix" (w.fix.map fun f => f.val) ++
    (optChild "sat" (w.sat.map fun i => String.mk (intChars i)) ++
    (optChild "hdop" (w.hdop.map Dec.str) ++
    (optChild "vdop" (w.vdop.map Dec.str) ++
    (optChild "pdop" (w.pdop.map Dec.str) ++
    (optChild "ageofdgpsdata" (w.ageofdgpsdata.map Dec.str) ++
    optChild "dgpsid" (w.dgpsid.map fun i => String.mk (intChars i.val))))))))))))))))))⟩

/-- Parse one optional child field: absent child leaves the field unset, a
present child must convert or the error propagates. -/
def parseOpt {A : Type} (e : XMLElement) (tag : String)
    (conv : Option String → Except GPXError A) : Except GPXError (Option A) :=
  match findChild e tag with
  | none => Except.ok none
  | some c => (conv c.text).map some

/-- Parse every `link` child in order, aborting at the first failure. -/
def parseLinks : List XMLElement → Except GPXError (List Link)
  | [] => Except.ok []
  | c :: cs =>
      match Link.parse c with
      | Except.error err => Except.error err
      | Except.ok l =>
          match parseLinks cs with
          | Except.error err => Except.error err
          | Except.ok ls => Except.ok (l :: ls)

/-- `Waypoint._parse` (source lines 149-221): required `lat`/`lon`
attributes, then each optional field in source order; the first conversion
failure aborts the whole parse with that error. -/
def Waypoint.parse (e : XMLElement) : Except GPXError Waypoint :=
  match convLat (getAttr e "lat") with
  | Except.error err => Except.error err
  | Except.ok lat =>
  match convLon (getAttr e "lon") with
  | Except.error err => Except.error err
  | Except.ok lon =>
  match parseOpt e "ele" (convDec "ele") with
  | Except.error err => Except.error err
  | Except.ok ele =>
  match parseOpt e "time" convTime with
  | Except.error err => Except.error err
  | Except.ok time =>
  match parseOpt e "magvar" convDegrees with
  | Except.error err => Except.error err
  | Except.ok magvar =>
  match parseOpt e "geoidheight" (convDec "geoidheight") with
  | Except.error err => Except.error err
  | Except.ok geoidheight =>
  let name := (findChild e "name").bind (fun c => c.text)
  let cmt := (findChild e "cmt").bind (fun c => c.text)
  let desc := (findChild e "desc").bind (fun c => c.text)
  let src := (findChild e "src").bind (fun c => c.text)
  match parseLinks (iterFind e "link") with
  | Except.error err => Except.error err
  | Except.ok links =>
  let sym := (findChild e "sym").bind (fun c => c.text)
  let type := (findChild e "type").bind (fun c => c.text)
  match parseOpt e "fix" convFix with
  | Except.error err => Except.error err
  | Except.ok fix =>
  match parseOpt e "sat" convSat with
  | Except.error err => Except.error err
  | Except.ok sat =>
  match parseOpt e "hdop" (convDec "hdop") with
  | Except.error err => Except.error err
  | Except.ok hdop =>
  match parseOpt e "vdop" (convDec "vdop") with
  | Except.error err => Except.error err
  | Except.ok vdop =>
  match parseOpt e "pdop" (convDec "pdop") with
  | Except.error err => Except.error err
  | Except.ok pdop =>
  match parseOpt e "ageofdgpsdata" (convDec "ageofdgpsdata") with
  | Except.error err => Except.error err
  | Except.ok ageofdgpsdata =>
  match parseOpt e "dgpsid" convDGPS with
  | Except.error err => Except.error err
  | Except.ok dgpsid =>
  Except.ok ⟨lat, lon, ele, time, magvar, geoidheight, name, cmt, desc, src,
    links, sym, type, fix, sat, hdop, vdop, pdop, ageofdgpsdata, dgpsid⟩

/-- The waypoint with its timestamp truncated to the precision the builder
renders (milliseconds when the sub-second part is non-zero). -/
def truncTimeW (w : Waypoint) : Waypoint :=
  { w with time := w.time.map DateTime.truncMs }

/-! Converter round-trips: each canonical rendering converts back to the same
value. -/

theorem convDec_str (field : String) (d : Dec) :
    convDec field (some d.str) = Except.ok d := by
  show (match parseDec d.toChars with
    | none => Except.error (GPXError.validation field (some d.str))
    | some x => Except.ok x) = Except.ok d
  rw [parseDec_toChars]

theorem convLat_str (x : Latitude) : convLat (some x.val.str) = Except.ok x := by
  show (match parseDec x.val.toChars with
    | none => Except.error (GPXError.validation "lat" (some x.val.str))
    | some d =>
        if h : latOK d then Except.ok ⟨d, h⟩
        else Except.error (GPXError.validation "lat" (some x.val.str))) = Except.ok x
  rw [parseDec_toChars]
  exact dif_pos x.property

theorem convLon_str (x : Longitude) : convLon (some x.val.str) = Except.ok x := by
  show (match parseDec x.val.toChars with
    | none => Except.error (GPXError.validation "lon" (some x.val.str))
    | some d =>
        if h : lonOK d then Except.ok ⟨d, h⟩
        else Except.error (GPXError.validation "lon" (some x.val.str))) = Except.ok x
  rw [parseDec_toChars]
  exact dif_pos x.property

theorem convDegrees_str (x : Degrees) : convDegrees (some x.val.str) = Except.ok x := by
  show (match parseDec x.val.toChars with
    | none => Except.error (GPXError.validation "magvar" (some x.val.str))
    | some d =>
        if h : degOK d then Except.ok ⟨d, h⟩
        else Except.error (GPXError.validation "magvar" (some x.val.str))) = Except.ok x
  rw [parseDec_toChars]
  exact dif_pos x.property

theorem convFix_val (f : Fix) : convFix (some f.val) = Except.ok f :=
  dif_pos f.property

theorem convSat_str (i : Int) :
    convSat (some (String.mk (intChars i))) = Except.ok i := by
  show (match parsePyInt (intChars i) with
    | none => Except.error (GPXError.validation "sat" (some (String.mk (intChars i))))
    | some x => Except.ok x) = Except.ok i
  rw [parsePyInt_intChars]

theorem convDGPS_str (x : DGPSStation) :
    convDGPS (some (String.mk (intChars x.val))) = Except.ok x := by
  show (match parsePyInt (intChars x.val) with
    | none => Except.error (GPXError.validation "dgpsid" (some (String.mk (intChars x.val))))
    | some i =>
        if h : dgpsOK i then Except.ok ⟨i, h⟩
        else Except.error
          (GPXError.validation "dgpsid" (some (String.mk (intChars x.val))))) = Except.ok x
  rw [parsePyInt_intChars]
  exact dif_pos x.property

theorem convTime_str (t : DateTime) :
    convTime (some (String.mk (timeTextChars t.val))) = Except.ok t.truncMs := by
  show (match isoparseChars (timeTextChars t.val) with
    | none => Except.error
        (GPXError.validation "time" (some (String.mk (timeTextChars t.val))))
    | some x => Except.ok x) = Except.ok t.truncMs
  rw [isoparseChars_timeText]

/-! Locating the children the builder emitted. -/

theorem find?_optChild_self (tag : String) (txt : Option String) :
    (optChild tag txt).find? (fun c => c.tag == tag) = txt.map (mkChild tag) := by
  cases txt with
  | none => rfl
  | some s => simp [optChild, mkChild, List.find?]

theorem find?_optChild_ne {tag t : String} (h : (tag == t) = false) (txt : Option String) :
    (optChild tag txt).find? (fun c => c.tag == t) = none := by
  cases txt with
  | none => rfl
  | some s => simp [optChild, mkChild, List.find?, h]

theorem find?_linkmap_ne {t : String} (h : (("link" : String) == t) = false)
    (links : List Link) :
    (links.map Link.build).find? (fun c => c.tag == t) = none := by
  induction links with
  | nil => rfl
  | cons l ls ih => simp [Link.build, List.find?, h, ih]

theorem filter_optChild_ne {tag t : String} (h : (tag == t) = false) (txt : Option String) :
    (optChild tag txt).filter (fun c => c.tag == t) = [] := by
  cases txt with
  | none => rfl
  | some s => simp [optChild, mkChild, List.filter, h]

theorem filter_linkmap (links : List Link) :
    (links.map Link.build).filter (fun c => c.tag == "link") = links.map Link.build := by
  induction links with
  | nil => rfl
  | cons l ls ih => simp [Link.build, List.filter, ih]

theorem filter_linkmap_ne {t : String} (h : (("link" : String) == t) = false)
    (links : List Link) :
    (links.map Link.build).filter (fun c => c.tag == t) = [] := by
  induction links with
  | nil => rfl
  | cons l ls ih => simp [Link.build, List.filter, h, ih]

theorem filter_optChild_none (tag t : String) :
    (optChild tag none).filter (fun c => c.tag == t) = [] := rfl

theorem findChild_build_ele (w : Waypoint) (tag : String) :
    findChild (w.build tag) "ele" = (w.ele.map Dec.str).map (mkChild "ele") := by
  unfold findChild Waypoint.build
  simp only [List.find?_append, find?_optChild_self, find?_optChild_ne,
    find?_linkmap_ne, String.reduceBEq, Option.none_or, Option.or_none]

theorem findChild_build_time (w : Waypoint) (tag : String) :
    findChild (w.build tag) "time" =
      (w.time.map fun t => String.mk (timeTextChars t.val)).map (mkChild "time") := by
  unfold findChild Waypoint.build
  simp only [List.find?_append, find?_optChild_self, find?_optChild_ne,
    find?_linkmap_ne, String.reduceBEq, Option.none_or, Option.or_none]

theorem findChild_build_magvar (w : Waypoint) (tag : String) :
    findChild (w.build tag) "magvar" =
      (w.magvar.map fun d => d.val.str).map (mkChild "magvar") := by
  unfold findChild Waypoint.build
  simp only [List.find?_append, find?_optChild_self, find?_optChild_ne,
    find?_linkmap_ne, String.reduceBEq, Option.none_or, Option.or_none]

theorem findChild_build_geoidheight (w : Waypoint) (tag : String) :
    findChild (w.build tag) "geoidheight" =
      (w.geoidheight.map Dec.str).map (mkChild "geoidheight") := by
  unfold findChild Waypoint.build
  simp only [List.find?_append, find?_optChild_self, find?_optChild_ne,
    find?_linkmap_ne, String.reduceBEq, Option.none_or, Option.or_none]

theorem findChild_build_name (w : Waypoint) (tag : String) :
    findChild (w.build tag) "name" = w.name.map (mkChild "name") := by
  unfold findChild Waypoint.build
  simp only [List.find?_append, find?_optChild_self, find?_optChild_ne,
    find?_linkmap_ne, String.reduceBEq, Option.none_or, Option.or_none]

theorem findChild_build_cmt (w : Waypoint) (tag : String) :
    findChild (w.build tag) "cmt" = w.cmt.map (mkChild "cmt") := by
  unfold findChild Waypoint.build
  simp only [List.find?_append, find?_optChild_self, find?_optChild_ne,
    find?_linkmap_ne, String.reduceBEq, Option.none_or, Option.or_none]

theorem findChild_build_desc (w : Waypoint) (tag : String) :
    findChild (w.build tag) "desc" = w.desc.map (mkChild "desc") := by
  unfold findChild Waypoint.build
  simp only [List.find?_append, find?_optChild_self, find?_optChild_ne,
    find?_linkmap_ne, String.reduceBEq, Option.none_or, Option.or_none]

theorem findChild_build_src (w : Waypoint) (tag : String) :
    findChild (w.build tag) "src" = w.src.map (mkChild "src") := by
  unfold findChild Waypoint.build
  simp only [List.find?_append, find?_optChild_self, find?_optChild_ne,
    find?_linkmap_ne, String.reduceBEq, Option.none_or, Option.or_none]

theorem findChild_build_sym (w : Waypoint) (tag : String) :
    findChild (w.build tag) "sym" = w.sym.map (mkChild "sym") := by
  unfold findChild Waypoint.build
  simp only [List.find?_append, find?_optChild_self, find?_optChild_ne,
    find?_linkmap_ne, String.reduceBEq, Option.none_or, Option.or_none]

theorem findChild_build_type (w : Waypoint) (tag : String) :
    findChild (w.build tag) "type" = w.type.map (mkChild "type") := by
  unfold findChild Waypoint.build
  simp only [List.find?_append, find?_optChild_self, find?_optChild_ne,
    find?_linkmap_ne, String.reduceBEq, Option.none_or, Option.or_none]

theorem findChild_build_fix (w : Waypoint) (tag : String) :
    findChild (w.build tag) "fix" =
      (w.fix.map fun f => f.val).map (mkChild "fix") := by
  unfold findChild Waypoint.build
  simp only [List.find?_append, find?_optChild_self, find?_optChild_ne,
    find?_linkmap_ne, String.reduceBEq, Option.none_or, Option.or_none]

theorem findChild_build_sat (w : Waypoint) (tag : String) :
    findChild (w.build tag) "sat" =
      (w.sat.map fun i => String.mk (intChars i)).map (mkChild "sat") := by
  unfold findChild Waypoint.build
  simp only [List.find?_append, find?_optChild_self, find?_optChild_ne,
    find?_linkmap_ne, String.reduceBEq, Option.none_or, Option.or_none]

theorem findChild_build_hdop (w : Waypoint) (tag : String) :
    findChild (w.build tag) "hdop" = (w.hdop.map Dec.str).map (mkChild "hdop") := by
  unfold findChild Waypoint.build
  simp only [List.find?_append, find?_optChild_self, find?_optChild_ne,
    find?_linkmap_ne, String.reduceBEq, Option.none_or, Option.or_none]

theorem findChild_build_vdop (w : Waypoint) (tag : String) :
    findChild (w.build tag) "vdop" = (w.vdop.map Dec.str).map (mkChild "vdop") := by
  unfold findChild Waypoint.build
  simp only [List.find?_append, find?_optChild_self, find?_optChild_ne,
    find?_linkmap_ne, String.reduceBEq, Option.none_or, Option.or_none]

theorem findChild_build_pdop (w : Waypoint) (tag : String) :
    findChild (w.build tag) "pdop" = (w.pdop.map Dec.str).map (mkChild "pdop") := by
  unfold findChild Waypoint.build
  simp only [List.find?_append, find?_optChild_self, find?_optChild_ne,
    find?_linkmap_ne, String.reduceBEq, Option.none_or, Option.or_none]

theorem findChild_build_ageofdgpsdata (w : Waypoint) (tag : String) :
    findChild (w.build tag) "ageofdgpsdata" =
      (w.ageofdgpsdata.map Dec.str).map (mkChild "ageofdgpsdata") := by
  unfold findChild Waypoint.build
  simp only [List.find?_append, find?_optChild_self, find?_optChild_ne,
    find?_linkmap_ne, String.reduceBEq, Option.none_or, Option.or_none]

theorem findChild_build_dgpsid (w : Waypoint) (tag : String) :
    findChild (w.build tag) "dgpsid" =
      (w.dgpsid.map fun i => String.mk (intChars i.val)).map (mkChild "dgpsid") := by
  unfold findChild Waypoint.build
  simp only [List.find?_append, find?_optChild_self, find?_optChild_ne,
    find?_linkmap_ne, String.reduceBEq, Option.none_or, Option.or_none]

theorem iterFind_build_link (w : Waypoint) (tag : String) :
    iterFind (w.build tag) "link" = w.links.map Link.build := by
  unfold iterFind Waypoint.build
  simp only [List.filter_append, filter_optChild_ne, filter_linkmap,
    String.reduceBEq, List.append_nil, List.nil_append]

theorem getAttr_build_lat (w : Waypoint) (tag : String) :
    getAttr (w.build tag) "lat" = some w.lat.val.str := rfl

theorem getAttr_build_lon (w : Waypoint) (tag : String) :
    getAttr (w.build tag) "lon" = some w.lon.val.str := rfl

/-! The link sub-entity round-trips. -/

theorem linkParse_build (l : Link) : Link.parse (Link.build l) = Except.ok l := by
  show (match getAttr (Link.build l) "href" with
    | none => Except.error (GPXError.validation "link.href" none)
    | some h =>
        Except.ok ⟨h, (findChild (Link.build l) "text").bind fun c => c.text⟩) =
    Except.ok l
  have h1 : getAttr (Link.build l) "href" = some l.href := rfl
  have h2 : (findChild (Link.build l) "text").bind (fun c => c.text) = l.text := by
    cases ht : l.text with
    | none => simp [Link.build, findChild, optChild, ht]
    | some s => simp [Link.build, findChild, optChild, mkChild, ht, List.find?]
  rw [h1, h2]

theorem parseLinks_build (links : List Link) :
    parseLinks (links.map Link.build) = Except.ok links := by
  induction links with
  | nil => rfl
  | cons l ls ih => simp [parseLinks, linkParse_build, ih]

theorem option_map_self {A : Type} (x : Option A) : (x.map fun a => a) = x := by
  cases x <;> rfl

/-- Parse one optional field of the built element, generically: the child is
found exactly when the field was set, and its text converts back. -/
theorem parseOpt_build {A B : Type} (E : XMLElement) (tagf : String)
    (conv : Option String → Except GPXError A) (o : Option B) (r : B → String)
    (f : B → A)
    (hfind : findChild E tagf = (o.map r).map (mkChild tagf))
    (hconv : ∀ b, conv (some (r b)) = Except.ok (f b)) :
    parseOpt E tagf conv = Except.ok (o.map f) := by
  unfold parseOpt
  rw [hfind]
  cases o with
  | none => rfl
  | some b => simp [mkChild, hconv b, Except.map]

/-- Parsing the built element recovers every field of the waypoint, the
timestamp at the rendered millisecond precision. -/
theorem waypoint_parse_build (w : Waypoint) (tag : String) :
    Waypoint.parse (w.build tag) = Except.ok (truncTimeW w) := by
  have hclat : convLat (getAttr (w.build tag) "lat") = Except.ok w.lat := by
    rw [getAttr_build_lat]
    exact convLat_str w.lat
  have hclon : convLon (getAttr (w.build tag) "lon") = Except.ok w.lon := by
    rw [getAttr_build_lon]
    exact convLon_str w.lon
  have hele : parseOpt (w.build tag) "ele" (convDec "ele") = Except.ok w.ele := by
    have := parseOpt_build (w.build tag) "ele" (convDec "ele") w.ele Dec.str
      (fun d => d) (findChild_build_ele w tag) (fun d => convDec_str "ele" d)
    rwa [option_map_self] at this
  have htime : parseOpt (w.build tag) "time" convTime =
      Except.ok (w.time.map DateTime.truncMs) :=
    parseOpt_build (w.build tag) "time" convTime w.time
      (fun t => String.mk (timeTextChars t.val)) DateTime.truncMs
      (findChild_build_time w tag) convTime_str
  have hmagvar : parseOpt (w.build tag) "magvar" convDegrees = Except.ok w.magvar := by
    have := parseOpt_build (w.build tag) "magvar" convDegrees w.magvar
      (fun d => d.val.str) (fun d => d) (findChild_build_magvar w tag) convDegrees_str
    rwa [option_map_self] at this
  have hgeoid : parseOpt (w.build tag) "geoidheight" (convDec "geoidheight") =
      Except.ok w.geoidheight := by
    have := parseOpt_build (w.build tag) "geoidheight" (convDec "geoidheight")
      w.geoidheight Dec.str (fun d => d) (findChild_build_geoidheight w tag)
      (fun d => convDec_str "geoidheight" d)
    rwa [option_map_self] at this
  have hname : (findChild (w.build tag) "name").bind (fun c => c.text) = w.name := by
    rw [findChild_build_name]
    cases w.name <;> rfl
  have hcmt : (findChild (w.build tag) "cmt").bind (fun c => c.text) = w.cmt := by
    rw [findChild_build_cmt]
    cases w.cmt <;> rfl
  have hdesc : (findChild (w.build tag) "desc").bind (fun c => c.text) = w.desc := by
    rw [findChild_build_desc]
    cases w.desc <;> rfl
  have hsrc : (findChild (w.build tag) "src").bind (fun c => c.text) = w.src := by
    rw [findChild_build_src]
    cases w.src <;> rfl
  have hlinks : parseLinks (iterFind (w.build tag) "link") = Except.ok w.links := by
    rw [iterFind_build_link, parseLinks_build]
  have hsym : (findChild (w.build tag) "sym").bind (fun c => c.text) = w.sym := by
    rw [findChild_build_sym]
    cases w.sym <;> rfl
  have htype : (findChild (w.build tag) "type").bind (fun c => c.text) = w.type := by
    rw [findChild_build_type]
    cases w.type <;> rfl
  have hfix : parseOpt (w.build tag) "fix" convFix = Except.ok w.fix := by
    have := parseOpt_build (w.build tag) "fix" convFix w.fix (fun f => f.val)
      (fun f => f) (findChild_build_fix w tag) convFix_val
    rwa [option_map_self] at this
  have hsat : parseOpt (w.build tag) "sat" convSat = Except.ok w.sat := by
    have := parseOpt_build (w.build tag) "sat" convSat w.sat
      (fun i => String.mk (intChars i)) (fun i => i) (findChild_build_sat w tag)
      convSat_str
    rwa [option_map_self] at this
  have hhdop : parseOpt (w.build tag) "hdop" (convDec "hdop") = Except.ok w.hdop := by
    have := parseOpt_build (w.build tag) "hdop" (convDec "hdop") w.hdop Dec.str
      (fun d => d) (findChild_build_hdop w tag) (fun d => convDec_str "hdop" d)
    rwa [option_map_self] at this
  have hvdop : parseOpt (w.build tag) "vdop" (convDec "vdop") = Except.ok w.vdop := by
    have := parseOpt_build (w.build tag) "vdop" (convDec "vdop") w.vdop Dec.str
      (fun d => d) (findChild_build_vdop w tag) (fun d => convDec_str "vdop" d)
    rwa [option_map_self] at this
  have hpdop : parseOpt (w.build tag) "pdop" (convDec "pdop") = Except.ok w.pdop := by
    have := parseOpt_build (w.build tag) "pdop" (convDec "pdop") w.pdop Dec.str
      (fun d => d) (findChild_build_pdop w tag) (fun d => convDec_str "pdop" d)
    rwa [option_map_self] at this
  have hage : parseOpt (w.build tag) "ageofdgpsdata" (convDec "ageofdgpsdata") =
      Except.ok w.ageofdgpsdata := by
    have := parseOpt_build (w.build tag) "ageofdgpsdata" (convDec "ageofdgpsdata")
      w.ageofdgpsdata Dec.str (fun d => d) (findChild_build_ageofdgpsdata w tag)
      (fun d => convDec_str "ageofdgpsdata" d)
    rwa [option_map_self] at this
  have hdgps : parseOpt (w.build tag) "dgpsid" convDGPS = Except.ok w.dgpsid := by
    have := parseOpt_build (w.build tag) "dgpsid" convDGPS w.dgpsid
      (fun x => String.mk (intChars x.val)) (fun x => x)
      (findChild_build_dgpsid w tag) convDGPS_str
    rwa [option_map_self] at this
  simp only [Waypoint.parse, hclat, hclon, hele, htime, hmagvar, hgeoid, hname, hcmt,
    hdesc, hsrc, hlinks, hsym, htype, hfix, hsat, hhdop, hvdop, hpdop, hage, hdgps]
  rfl

/-! ## All-or-nothing parsing -/

/-- The error of a failed computation, if any. -/
def errOpt {A : Type} : Except GPXError A → Option GPXError
  | Except.error err => some err
  | Except.ok _ => none

/-- Every field-level conversion failure of the element, each conversion
applied independently to its own attribute/child text, listed in the order
`_parse` visits the fields. -/
def wpFieldErrors (e : XMLElement) : List GPXError :=
  (errOpt (convLat (getAttr e "lat"))).toList ++
  ((errOpt (convLon (getAttr e "lon"))).toList ++
  ((errOpt (parseOpt e "ele" (convDec "ele"))).toList ++
  ((errOpt (parseOpt e "time" convTime)).toList ++
  ((errOpt (parseOpt e "magvar" convDegrees)).toList ++
  ((errOpt (parseOpt e "geoidheight" (convDec "geoidheight"))).toList ++
  ((errOpt (parseLinks (iterFind e "link"))).toList ++
  ((errOpt (parseOpt e "fix" convFix)).toList ++
  ((errOpt (parseOpt e "sat" convSat)).toList ++
  ((errOpt (parseOpt e "hdop" (convDec "hdop"))).toList ++
  ((errOpt (parseOpt e "vdop" (convDec "vdop"))).toList ++
  ((errOpt (parseOpt e "pdop" (convDec "pdop"))).toList ++
  ((errOpt (parseOpt e "ageofdgpsdata" (convDec "ageofdgpsdata"))).toList ++
  (errOpt (parseOpt e "dgpsid" convDGPS)).toList))))))))))))

/-- `_parse` fails exactly when some field conversion fails, and then with the
first failing field's error: the parse result's error is the head of the
per-field error list. -/
theorem waypoint_parse_first_error (e : XMLElement) :
    errOpt (Waypoint.parse e) = (wpFieldErrors e).head? := by
  cases h1 : convLat (getAttr e "lat") with
  | error err => simp [Waypoint.parse, wpFieldErrors, errOpt, h1]
  | ok lat =>
  cases h2 : convLon (getAttr e "lon") with
  | error err => simp [Waypoint.parse, wpFieldErrors, errOpt, h1, h2]
  | ok lon =>
  cases h3 : parseOpt e "ele" (convDec "ele") with
  | error err => simp [Waypoint.parse, wpFieldErrors, errOpt, h1, h2, h3]
  | ok ele =>
  cases h4 : parseOpt e "time" convTime with
  | error err => simp [Waypoint.parse, wpFieldErrors, errOpt, h1, h2, h3, h4]
  | ok time =>
  cases h5 : parseOpt e "magvar" convDegrees with
  | error err => simp [Waypoint.parse, wpFieldErrors, errOpt, h1, h2, h3, h4, h5]
  | ok magvar =>
  cases h6 : parseOpt e "geoidheight" (convDec "geoidheight") with
  | error err => simp [Waypoint.parse, wpFieldErrors, errOpt, h1, h2, h3, h4, h5, h6]
  | ok geoidheight =>
  cases h7 : parseLinks (iterFind e "link") with
  | error err =>
      simp [Waypoint.parse, wpFieldErrors, errOpt, h1, h2, h3, h4, h5, h6, h7]
  | ok links =>
  cases h8 : parseOpt e "fix" convFix with
  | error err =>
      simp [Waypoint.parse, wpFieldErrors, errOpt, h1, h2, h3, h4, h5, h6, h7, h8]
  | ok fix =>
  cases h9 : parseOpt e "sat" convSat with
  | error err =>
      simp [Waypoint.parse, wpFieldErrors, errOpt, h1, h2, h3, h4, h5, h6, h7, h8, h9]
  | ok sat =>
  cases h10 : parseOpt e "hdop" (convDec "hdop") with
  | error err =>
      simp [Waypoint.parse, wpFieldErrors, errOpt, h1, h2, h3, h4, h5, h6, h7, h8, h9,
        h10]
  | ok hdop =>
  cases h11 : parseOpt e "vdop" (convDec "vdop") with
  | error err =>
      simp [Waypoint.parse, wpFieldErrors, errOpt, h1, h2, h3, h4, h5, h6, h7, h8, h9,
        h10, h11]
  | ok vdop =>
  cases h12 : parseOpt e "pdop" (convDec "pdop") with
  | error err =>
      simp [Waypoint.parse, wpFieldErrors, errOpt, h1, h2, h3, h4, h5, h6, h7, h8, h9,
        h10, h11, h12]
  | ok pdop =>
  cases h13 : parseOpt e "ageofdgpsdata" (convDec "ageofdgpsdata") with
  | error err =>
      simp [Waypoint.parse, wpFieldErrors, errOpt, h1, h2, h3, h4, h5, h6, h7, h8, h9,
        h10, h11, h12, h13]
  | ok ageofdgpsdata =>
  cases h14 : parseOpt e "dgpsid" convDGPS with
  | error err =>
      simp [Waypoint.parse, wpFieldErrors, errOpt, h1, h2, h3, h4, h5, h6, h7, h8, h9,
        h10, h11, h12, h13, h14]
  | ok dgpsid =>
      simp [Waypoint.parse, wpFieldErrors, errOpt, h1, h2, h3, h4, h5, h6, h7, h8, h9,
        h10, h11, h12, h13, h14]

/-! ## Geodesy

The geodesy methods compute with Python floats; they are idealized here over
the reals (the claims proved about them hold exactly in both arithmetics at
the inputs they are applied to). -/

open scoped Classical

/-- `float(Decimal)` idealized over ℝ: the numeric value of a decimal. -/
noncomputable def Dec.toReal (d : Dec) : ℝ := (d.c : ℝ) / 10 ^ d.e

/-- `math.radians`. -/
noncomputable def radiansR (x : ℝ) : ℝ := x * Real.pi / 180

/-- `math.atan2` (C-library quadrant convention, idealized over ℝ). -/
noncomputable def atan2R (y x : ℝ) : ℝ :=
  if 0 < x then Real.arctan (y / x)
  else if x < 0 then
    (if 0 ≤ y then Real.arctan (y / x) + Real.pi else Real.arctan (y / x) - Real.pi)
  else
    (if 0 < y then Real.pi / 2 else if y < 0 then -(Real.pi / 2) else 0)

/-- `Waypoint.distance_to` (source lines 305-325): haversine great-circle
distance on a sphere of the given radius (the source default is
6,378,137 m). -/
noncomputable def Waypoint.distance_to (w other : Waypoint) (radius : ℝ) : ℝ :=
  let φ1 := radiansR w.lat.val.toReal
  let lam1 := radiansR w.lon.val.toReal
  let φ2 := radiansR other.lat.val.toReal
  let lam2 := radiansR other.lon.val.toReal
  let Δφ := φ2 - φ1
  let Δlam := lam2 - lam1
  let a := Real.sin (Δφ / 2) * Real.sin (Δφ / 2) +
    Real.cos φ1 * Real.cos φ2 * Real.sin (Δlam / 2) * Real.sin (Δlam / 2)
  let δ := 2 * atan2R (Real.sqrt a) (Real.sqrt (1 - a))
  radius * δ

/-- `distance_to` at the source's default radius argument. -/
noncomputable def Waypoint.distanceDefault (w other : Waypoint) : ℝ :=
  w.distance_to other 6378137

/-- A Python `timedelta`, exact in microseconds. -/
structure Timedelta where
  microseconds : Int
deriving DecidableEq, Repr

/-- `timedelta.total_seconds()`, idealized over ℝ. -/
noncomputable def Timedelta.totalSeconds (td : Timedelta) : ℝ :=
  (td.microseconds : ℝ) / 1000000

/-- Leap years of the proleptic Gregorian calendar. -/
def isLeap (y : Nat) : Bool := (y % 4 == 0 && y % 100 != 0) || y % 400 == 0

/-- Days before January 1 of the year (proleptic Gregorian, as
`datetime.toordinal`). -/
def daysBeforeYear (y : Nat) : Int :=
  365 * ((y : Int) - 1) + ((y : Int) - 1) / 4 - ((y : Int) - 1) / 100 +
    ((y : Int) - 1) / 400

/-- Days before the first of the month within the year. -/
def daysBeforeMonth (y m : Nat) : Nat :=
  (([31, if isLeap y then 29 else 28, 31, 30, 31, 30, 31, 31, 30, 31, 30,
    31].take (m - 1)).foldl (fun a x => a + x) 0)

/-- `datetime.toordinal`: day number of the proleptic Gregorian calendar. -/
def toOrdinal (t : DateTimeRaw) : Int :=
  daysBeforeYear t.year + daysBeforeMonth t.year t.month + t.day

/-- Microseconds since the calendar epoch, ignoring the offset. -/
def dtMicros (t : DateTimeRaw) : Int :=
  (((toOrdinal t * 24 + (t.hour : Int)) * 60 + t.minute) * 60 + t.second) *
    1000000 + t.microsecond

/-- Modelled from the spec: Python `datetime` subtraction — aware minus aware
subtracts after removing the UTC offsets, naive minus naive subtracts
wall-clock values, and mixing naive with aware raises `TypeError`. -/
def dtSub (b a : DateTime) : Except GPXError Timedelta :=
  match b.val.tz, a.val.tz with
  | none, none => Except.ok ⟨dtMicros b.val - dtMicros a.val⟩
  | some offb, some offa =>
      Except.ok ⟨(dtMicros b.val - offb * 60000000) -
        (dtMicros a.val - offa * 60000000)⟩
  | _, _ => Except.error GPXError.naiveAwareMix

/-- `Waypoint.duration_to` (source lines 327-338): `other.time - self.time`,
or an empty `timedelta()` when either timestamp is absent. -/
def Waypoint.duration_to (w other : Waypoint) : Except GPXError Timedelta :=
  match w.time, other.time with
  | none, _ => Except.ok ⟨0⟩
  | _, none => Except.ok ⟨0⟩
  | some ta, some tb => dtSub tb ta

/-- Python float division: raises `ZeroDivisionError` on a zero divisor,
never silently yielding zero. -/
noncomputable def pyDiv (x y : ℝ) : Except GPXError ℝ :=
  if y = 0 then Except.error GPXError.zeroDivision else Except.ok (x / y)

/-- `Waypoint.speed_to` (source lines 340-349):
`distance_to(other) / duration_to(other).total_seconds()`. -/
noncomputable def Waypoint.speed_to (w other : Waypoint) : Except GPXError ℝ :=
  match w.duration_to other with
  | Except.error err => Except.error err
  | Except.ok td => pyDiv (w.distanceDefault other) td.totalSeconds

/-- Modelled from the spec: exact decimal subtraction — align to the finer
exponent and subtract coefficients. -/
def Dec.sub (a b : Dec) : Dec :=
  ⟨a.c * 10 ^ (max a.e b.e - a.e) - b.c * 10 ^ (max a.e b.e - b.e), max a.e b.e⟩

/-- Decimal unary minus. -/
def Dec.neg (d : Dec) : Dec := ⟨-d.c, d.e⟩

/-- `Waypoint.gain_to` (source lines 351-362): `other.ele - self.ele`, or
`Decimal("0.0")` when either elevation is absent. -/
def Waypoint.gain_to (w other : Waypoint) : Dec :=
  match w.ele, other.ele with
  | none, _ => ⟨0, 1⟩
  | _, none => ⟨0, 1⟩
  | some ea, some eb => Dec.sub eb ea

/-- The haversine quantity the code computes, in the code's own shape. -/
noncomputable def havCode (a b : Waypoint) : ℝ :=
  Real.sin ((radiansR b.lat.val.toReal - radiansR a.lat.val.toReal) / 2) *
    Real.sin ((radiansR b.lat.val.toReal - radiansR a.lat.val.toReal) / 2) +
  Real.cos (radiansR a.lat.val.toReal) * Real.cos (radiansR b.lat.val.toReal) *
    Real.sin ((radiansR b.lon.val.toReal - radiansR a.lon.val.toReal) / 2) *
    Real.sin ((radiansR b.lon.val.toReal - radiansR a.lon.val.toReal) / 2)

/-- The haversine `h` exactly as the spec sentence writes it:
`sin²(Δφ/2) + cos(φ1)·cos(φ2)·sin²(Δλ/2)`. -/
noncomputable def havSpec (a b : Waypoint) : ℝ :=
  Real.sin ((radiansR b.lat.val.toReal - radiansR a.lat.val.toReal) / 2) ^ 2 +
  Real.cos (radiansR a.lat.val.toReal) * Real.cos (radiansR b.lat.val.toReal) *
    Real.sin ((radiansR b.lon.val.toReal - radiansR a.lon.val.toReal) / 2) ^ 2

theorem distance_eq_havCode (a b : Waypoint) (r : ℝ) :
    a.distance_to b r =
      r * (2 * atan2R (Real.sqrt (havCode a b)) (Real.sqrt (1 - havCode a b))) := by
  simp only [Waypoint.distance_to, havCode]

theorem havCode_eq_havSpec (a b : Waypoint) : havCode a b = havSpec a b := by
  simp only [havCode, havSpec]
  ring

theorem atan2R_zero_one : atan2R 0 1 = 0 := by
  unfold atan2R
  rw [if_pos (by norm_num : (0 : ℝ) < 1)]
  norm_num [Real.arctan_zero]

theorem havCode_self (w : Waypoint) : havCode w w = 0 := by
  simp [havCode]

theorem distance_self (w : Waypoint) (r : ℝ) : w.distance_to w r = 0 := by
  rw [distance_eq_havCode, havCode_self, Real.sqrt_zero,
    show (1 : ℝ) - 0 = 1 by ring, Real.sqrt_one, atan2R_zero_one]
  ring

theorem totalSeconds_eq_zero_iff (td : Timedelta) :
    td.totalSeconds = 0 ↔ td.microseconds = 0 := by
  unfold Timedelta.totalSeconds
  rw [div_eq_zero_iff]
  constructor
  · intro h
    rcases h with h | h
    · exact_mod_cast h
    · norm_num at h
  · intro h
    left
    exact_mod_cast h

/-! ## The GeoJSON projection (`__geo_interface__`, source lines 104-147) -/

/-- A Python dict, modelled as an association list with dict semantics:
inserting an existing key updates its value in place, a new key appends. -/
def pyDictInsert {K V : Type} [BEq K] (d : List (K × V)) (k : K) (v : V) :
    List (K × V) :=
  if d.any (fun p => p.1 == k) then
    d.map (fun p => if p.1 == k then (k, v) else p)
  else d ++ [(k, v)]

/-- The dict built from a sequence of key-value pairs, later pairs
overwriting earlier values for the same key. -/
def pyDictOf {K V : Type} [BEq K] (ps : List (K × V)) : List (K × V) :=
  ps.foldl (fun d p => pyDictInsert d p.1 p.2) []

/-- Key lookup in the dict. -/
def pyDictLookup {K V : Type} [BEq K] (d : List (K × V)) (k : K) : Option V :=
  (d.find? (fun p => p.1 == k)).map (fun p => p.2)

structure GeoGeometry where
  type : String
  coordinates : List ℝ

structure GeoProperties where
  time : Option String
  magvar : Option ℝ
  geoidheight : Option ℝ
  name : Option String
  cmt : Option String
  desc : Option String
  src : Option String
  links : List (Option String × String)
  sym : Option String
  type : Option String
  fix : Option String
  sat : Option Int
  hdop : Option ℝ
  vdop : Option ℝ
  pdop : Option ℝ
  ageofdgpsdata : Option ℝ
  dgpsid : Option String

structure GeoInterface where
  type : String
  geometry : GeoGeometry
  properties : GeoProperties

/-- `self.time.isoformat()` with the default (auto) timespec, as the
projection renders the timestamp. -/
def isoAutoText (t : DateTimeRaw) : String := String.mk (isoformat t TimeSpec.auto)

/-- `Waypoint.__geo_interface__` (source lines 104-147): a Feature whose
Point coordinates are `[lon, lat]`, with the elevation appended only when it
is set, and whose properties coerce each optional field to plain form
(decimals to floats, links to a dict keyed by link text). -/
noncomputable def Waypoint.geoInterface (w : Waypoint) : GeoInterface :=
  { type := "Feature"
    geometry :=
      { type := "Point"
        coordinates :=
          match w.ele with
          | some e => [w.lon.val.toReal, w.lat.val.toReal, e.toReal]
          | none => [w.lon.val.toReal, w.lat.val.toReal] }
    properties :=
      { time := w.time.map fun t => isoAutoText t.val
        magvar := w.magvar.map fun d => d.val.toReal
        geoidheight := w.geoidheight.map Dec.toReal
        name := w.name
        cmt := w.cmt
        desc := w.desc
        src := w.src
        links := pyDictOf (w.links.map fun l => (l.text, l.href))
        sym := w.sym
        type := w.type
        fix := w.fix.map fun f => f.val
        sat := w.sat
        hdop := w.hdop.map Dec.toReal
        vdop := w.vdop.map Dec.toReal
        pdop := w.pdop.map Dec.toReal
        ageofdgpsdata := w.ageofdgpsdata.map Dec.toReal
        dgpsid := w.dgpsid.map fun i => String.mk (intChars i.val) } }

/-- The text of the built element's `time` child, if any. -/
def timeChildText (e : XMLElement) : Option String :=
  (findChild e "time").bind (fun c => c.text)

/-! Dict semantics lemmas. -/

theorem find?_key_cons_true {K V : Type} [BEq K] {a : K × V} {l : List (K × V)}
    {k : K} (h : (a.1 == k) = true) :
    (a :: l).find? (fun q => q.1 == k) = some a := by
  rw [List.find?_cons_of_pos]
  exact h

theorem find?_key_cons_false {K V : Type} [BEq K] {a : K × V} {l : List (K × V)}
    {k : K} (h : (a.1 == k) = false) :
    (a :: l).find? (fun q => q.1 == k) = l.find? (fun q => q.1 == k) := by
  rw [List.find?_cons_of_neg]
  simp [h]

theorem find?_replace_ne {K V : Type} [BEq K] [LawfulBEq K]
    (d : List (K × V)) (k1 k : K) (v : V) (h : (k1 == k) = false) :
    (d.map (fun p => if p.1 == k1 then (k1, v) else p)).find? (fun p => p.1 == k) =
      d.find? (fun p => p.1 == k) := by
  induction d with
  | nil => rfl
  | cons p ps ih =>
      rw [List.map_cons]
      cases hp : (p.1 == k1) with
      | true =>
          rw [if_pos rfl]
          rw [find?_key_cons_false (show (((k1, v) : K × V).1 == k) = false from h)]
          have h2 : (p.1 == k) = false := by
            rw [eq_of_beq hp]
            exact h
          rw [find?_key_cons_false h2, ih]
      | false =>
          rw [if_neg Bool.false_ne_true]
          cases hq : (p.1 == k) with
          | true => rw [find?_key_cons_true hq, find?_key_cons_true hq]
          | false => rw [find?_key_cons_false hq, find?_key_cons_false hq, ih]

theorem find?_replace_self {K V : Type} [BEq K] [LawfulBEq K]
    (d : List (K × V)) (k : K) (v : V) (h : d.any (fun p => p.1 == k) = true) :
    (d.map (fun p => if p.1 == k then (k, v) else p)).find? (fun p => p.1 == k) =
      some (k, v) := by
  induction d with
  | nil => simp at h
  | cons p ps ih =>
      rw [List.map_cons]
      cases hp : (p.1 == k) with
      | true =>
          rw [if_pos rfl]
          exact find?_key_cons_true
            (show (((k, v) : K × V).1 == k) = true from beq_self_eq_true k)
      | false =>
          have hps : ps.any (fun p => p.1 == k) = true := by
            simp only [List.any_cons, hp, Bool.false_or] at h
            exact h
          rw [if_neg Bool.false_ne_true, find?_key_cons_false hp, ih hps]

theorem lookup_insert_self {K V : Type} [BEq K] [LawfulBEq K]
    (d : List (K × V)) (k : K) (v : V) :
    pyDictLookup (pyDictInsert d k v) k = some v := by
  unfold pyDictInsert pyDictLookup
  by_cases h : d.any (fun p => p.1 == k) = true
  · rw [if_pos h, find?_replace_self d k v h]
    rfl
  · rw [if_neg h, List.find?_append]
    have hnone : d.find? (fun p => p.1 == k) = none := by
      rw [List.find?_eq_none]
      intro p hp hpk
      exact h (List.any_eq_true.mpr ⟨p, hp, hpk⟩)
    rw [hnone, Option.none_or,
      find?_key_cons_true (show (((k, v) : K × V).1 == k) = true from beq_self_eq_true k)]
    rfl

theorem lookup_insert_ne {K V : Type} [BEq K] [LawfulBEq K]
    (d : List (K × V)) (k1 k : K) (v : V) (h : (k1 == k) = false) :
    pyDictLookup (pyDictInsert d k1 v) k = pyDictLookup d k := by
  unfold pyDictInsert pyDictLookup
  by_cases ha : d.any (fun p => p.1 == k1) = true
  · rw [if_pos ha, find?_replace_ne d k1 k v h]
  · rw [if_neg ha, List.find?_append,
      find?_key_cons_false (show (((k1, v) : K × V).1 == k) = false from h),
      show List.find? (fun q => q.1 == k) ([] : List (K × V)) = none from rfl]
    cases hfd : d.find? (fun p => p.1 == k) <;> rfl

/-- Looking a key up in the dict built from a pair sequence returns the value
of the LAST pair carrying that key. -/
theorem pyDictOf_lookup {K V : Type} [BEq K] [LawfulBEq K]
    (ps : List (K × V)) (k : K) :
    pyDictLookup (pyDictOf ps) k =
      (ps.reverse.find? (fun p => p.1 == k)).map (fun p => p.2) := by
  induction ps using List.reverseRecOn with
  | nil => rfl
  | append_singleton ps p ih =>
      have hfold : pyDictOf (ps ++ [p]) = pyDictInsert (pyDictOf ps) p.1 p.2 := by
        unfold pyDictOf
        rw [List.foldl_append]
        rfl
      rw [hfold, List.reverse_append,
        show ([p] : List (K × V)).reverse ++ ps.reverse = p :: ps.reverse from by simp]
      cases hk : (p.1 == k) with
      | true =>
          have hk2 : p.1 = k := eq_of_beq hk
          subst hk2
          rw [lookup_insert_self,
            find?_key_cons_true (show (p.1 == p.1) = true from beq_self_eq_true p.1)]
          rfl
      | false =>
          rw [lookup_insert_ne _ _ _ _ hk, ih, find?_key_cons_false hk]

/-! ## Concrete instances used by witnesses -/

/-- A waypoint at the origin with every optional field unset. -/
def bareWpt : Waypoint :=
  { lat := ⟨⟨0, 0⟩, by decide⟩
    lon := ⟨⟨0, 0⟩, by decide⟩
    ele := none
    time := none
    magvar := none
    geoidheight := none
    name := none
    cmt := none
    desc := none
    src := none
    links := []
    sym := none
    type := none
    fix := none
    sat := none
    hdop := none
    vdop := none
    pdop := none
    ageofdgpsdata := none
    dgpsid := none }

/-- An element whose `lat` attribute text is not a valid decimal. -/
def badElem : XMLElement := ⟨"wpt", [("lat", "abc"), ("lon", "0")], none, []⟩

/-- A naive timestamp (no tz info), 2021-03-04 05:06:07. -/
def dtNaive : DateTime := ⟨⟨2021, 3, 4, 5, 6, 7, 0, none⟩, by decide⟩

/-- A waypoint carrying the naive timestamp. -/
def wptNaive : Waypoint := { bareWpt with time := some dtNaive }

/-- A naive timestamp for the speed witness. -/
def dtT : DateTime := ⟨⟨2020, 1, 1, 0, 0, 0, 0, none⟩, by decide⟩

/-- A waypoint with a set timestamp (for the zero-duration speed case). -/
def wptT : Waypoint := { bareWpt with time := some dtT }

/-- A second all-bare waypoint for the duration witness. -/
def wptB7 : Waypoint := bareWpt

/-- A waypoint with elevation set. -/
def wptEle : Waypoint := { bareWpt with ele := some ⟨5, 0⟩ }

/-! ## The claims -/

/-- C1: for every waypoint (any subset of optional fields set, any list of
links) parsing the XML element produced by building it yields a waypoint
whose every field equals the original, the timestamp compared at the fixed
rendering precision (milliseconds when the sub-second part is non-zero,
otherwise seconds). -/
theorem claim_C1_roundtrip (w : Waypoint) (tag : String) :
    Waypoint.parse (w.build tag) = Except.ok (truncTimeW w) :=
  waypoint_parse_build w tag

/-- C2: parse is all-or-nothing — whenever some field's text fails its scalar
conversion, the whole parse aborts with the FIRST such field's error and no
waypoint is returned; when no field fails, a waypoint is returned. -/
theorem claim_C2_all_or_nothing (e : XMLElement) :
    (∀ err, (wpFieldErrors e).head? = some err →
      Waypoint.parse e = Except.error err) ∧
    (wpFieldErrors e = [] → ∃ w, Waypoint.parse e = Except.ok w) := by
  have h := waypoint_parse_first_error e
  constructor
  · intro err herr
    rw [herr] at h
    cases hp : Waypoint.parse e with
    | error e2 =>
        rw [hp] at h
        have h3 : e2 = err := by simpa [errOpt] using h
        rw [h3]
    | ok w =>
        rw [hp] at h
        simp [errOpt] at h
  · intro hnil
    rw [hnil] at h
    cases hp : Waypoint.parse e with
    | error e2 =>
        rw [hp] at h
        simp [errOpt] at h
    | ok w => exact ⟨w, rfl⟩

/-- Witness for C2: an element with unparseable `lat` text makes the whole
parse fail with precisely that field's error. -/
theorem claim_C2_witness :
    Waypoint.parse badElem = Except.error (GPXError.validation "lat" (some "abc")) :=
  (claim_C2_all_or_nothing badElem).1 (GPXError.validation "lat" (some "abc")) rfl

/-- Counterexample to C3 as stated: the claim says the built time text always
carries the single-character `Z` designator, but a waypoint whose (set)
timestamp is naive builds a time child with no offset designator at all. -/
theorem claim_C3_counterexample :
    wptNaive.time.isSome = true ∧
    timeChildText (wptNaive.build "wpt") = some "2021-03-04T05:06:07" ∧
    ('Z' ∈ "2021-03-04T05:06:07".toList) = False := by
  refine ⟨rfl, by decide, by decide⟩

/-- C3 (amended): the built time child is the ISO date-time rendered at
millisecond precision when the microsecond is non-zero and second precision
otherwise; the zero UTC offset `+00:00` is replaced by the designator `Z`,
while a naive timestamp renders no offset designator at all and a non-zero
offset stays numeric `±HH:MM`. -/
theorem claim_C3_amended (w : Waypoint) (t : DateTime) (h : w.time = some t) :
    (t.val.tz = some 0 →
      timeChildText (w.build "wpt") =
        some (String.mk (isoBase t.val ++ (tsFrac t.val (buildSpec t.val) ++ ['Z'])))) ∧
    (t.val.tz = none →
      timeChildText (w.build "wpt") =
        some (String.mk (isoBase t.val ++ tsFrac t.val (buildSpec t.val)))) ∧
    (∀ off, off ≠ 0 → off.natAbs ≤ 1439 → t.val.tz = some off →
      timeChildText (w.build "wpt") =
        some (String.mk (isoBase t.val ++
          (tsFrac t.val (buildSpec t.val) ++ offsetChars off)))) := by
  have hbase : timeChildText (w.build "wpt") =
      some (String.mk (timeTextChars t.val)) := by
    unfold timeChildText
    rw [findChild_build_time, h]
    rfl
  refine ⟨fun htz => ?_, fun htz => ?_, fun off h0 hb htz => ?_⟩
  · rw [hbase, timeTextChars_utc htz]
  · rw [hbase, timeTextChars_none htz]
  · rw [hbase, timeTextChars_offset htz h0 hb]

/-- Witness for the amended C3, at the naive-timestamp waypoint. -/
theorem claim_C3_witness :
    timeChildText (wptNaive.build "wpt") =
      some (String.mk (isoBase dtNaive.val ++ tsFrac dtNaive.val (buildSpec dtNaive.val))) :=
  (claim_C3_amended wptNaive dtNaive rfl).2.1 rfl

/-- C4: speed is the haversine distance (at the default radius) divided by
the duration in seconds; a zero-length duration (equal timestamps, or either
absent) surfaces Python's float division-by-zero error and is never silently
coerced to zero. -/
theorem claim_C4_speed (a b : Waypoint) (td : Timedelta)
    (h : a.duration_to b = Except.ok td) :
    (td.microseconds ≠ 0 →
      a.speed_to b = Except.ok (a.distanceDefault b / td.totalSeconds)) ∧
    (td.microseconds = 0 → a.speed_to b = Except.error GPXError.zeroDivision) := by
  constructor
  · intro hne
    have hts : ¬ td.totalSeconds = 0 := fun hh =>
      hne ((totalSeconds_eq_zero_iff td).mp hh)
    simp only [Waypoint.speed_to, h, pyDiv, if_neg hts]
  · intro h0
    have hts : td.totalSeconds = 0 := (totalSeconds_eq_zero_iff td).mpr h0
    simp only [Waypoint.speed_to, h, pyDiv, if_pos hts]

/-- Witness for C4: two equal timestamps give a zero-length duration and the
speed computation surfaces the division-by-zero error. -/
theorem claim_C4_witness :
    wptT.speed_to wptT = Except.error GPXError.zeroDivision :=
  (claim_C4_speed wptT wptT ⟨0⟩ rfl).2 rfl

/-- C5: `distance_to` computes the haversine great-circle distance — it
equals `radius · 2·atan2(√h, √(1−h))` with `h` the spec's haversine formula,
the default radius is 6,378,137 m, and identical points are at distance
exactly 0 with no domain error. -/
theorem claim_C5_distance (a b w : Waypoint) (r : ℝ) :
    a.distance_to b r =
      r * (2 * atan2R (Real.sqrt (havSpec a b)) (Real.sqrt (1 - havSpec a b))) ∧
    w.distance_to w r = 0 ∧
    a.distanceDefault b = a.distance_to b 6378137 :=
  ⟨by rw [distance_eq_havCode, havCode_eq_havSpec], distance_self w r, rfl⟩

/-- C6: absence preservation — every optional field that is unset contributes
no child node at all to the built element. -/
theorem claim_C6_absence (w : Waypoint) (tag : String) :
    (w.ele = none → iterFind (w.build tag) "ele" = []) ∧
    (w.time = none → iterFind (w.build tag) "time" = []) ∧
    (w.magvar = none → iterFind (w.build tag) "magvar" = []) ∧
    (w.geoidheight = none → iterFind (w.build tag) "geoidheight" = []) ∧
    (w.name = none → iterFind (w.build tag) "name" = []) ∧
    (w.cmt = none → iterFind (w.build tag) "cmt" = []) ∧
    (w.desc = none → iterFind (w.build tag) "desc" = []) ∧
    (w.src = none → iterFind (w.build tag) "src" = []) ∧
    (w.sym = none → iterFind (w.build tag) "sym" = []) ∧
    (w.type = none → iterFind (w.build tag) "type" = []) ∧
    (w.fix = none → iterFind (w.build tag) "fix" = []) ∧
    (w.sat = none → iterFind (w.build tag) "sat" = []) ∧
    (w.hdop = none → iterFind (w.build tag) "hdop" = []) ∧
    (w.vdop = none → iterFind (w.build tag) "vdop" = []) ∧
    (w.pdop = none → iterFind (w.build tag) "pdop" = []) ∧
    (w.ageofdgpsdata = none → iterFind (w.build tag) "ageofdgpsdata" = []) ∧
    (w.dgpsid = none → iterFind (w.build tag) "dgpsid" = []) := by
  refine ⟨fun h => ?_, fun h => ?_, fun h => ?_, fun h => ?_, fun h => ?_,
    fun h => ?_, fun h => ?_, fun h => ?_, fun h => ?_, fun h => ?_, fun h => ?_,
    fun h => ?_, fun h => ?_, fun h => ?_, fun h => ?_, fun h => ?_, fun h => ?_⟩
  all_goals
    unfold iterFind Waypoint.build
    simp only [List.filter_append, filter_optChild_ne, filter_linkmap_ne,
      String.reduceBEq, h, Option.map_none', filter_optChild_none,
      List.append_nil, List.nil_append]

/-- Witness for C6: the bare waypoint builds an element with no `ele`
child. -/
theorem claim_C6_witness : iterFind (bareWpt.build "wpt") "ele" = [] :=
  (claim_C6_absence bareWpt "wpt").1 rfl

/-- C7: duration is `other.time − self.time` when both timestamps are set,
and a zero-length duration — not a failure — when either is absent. -/
theorem claim_C7_duration (a b : Waypoint) :
    ((a.time = none ∨ b.time = none) →
      a.duration_to b = Except.ok (⟨0⟩ : Timedelta)) ∧
    (∀ ta tb, a.time = some ta → b.time = some tb →
      a.duration_to b = dtSub tb ta) := by
  constructor
  · intro h
    unfold Waypoint.duration_to
    rcases h with h | h
    · rw [h]
      cases hb : b.time <;> rfl
    · rw [h]
      cases ha : a.time <;> rfl
  · intro ta tb ha hb
    unfold Waypoint.duration_to
    rw [ha, hb]

/-- Witness for C7: both timestamps absent yields the zero duration. -/
theorem claim_C7_witness : wptB7.duration_to wptB7 = Except.ok (⟨0⟩ : Timedelta) :=
  (claim_C7_duration wptB7 wptB7).1 (Or.inl rfl)

/-- C8: the GeoJSON projection is a Feature with Point geometry whose
coordinates are `[lon, lat]` (length 2) when elevation is unset and
`[lon, lat, ele]` (length 3) when set. -/
theorem claim_C8_geo (w : Waypoint) :
    (w.geoInterface).type = "Feature" ∧
    (w.geoInterface).geometry.type = "Point" ∧
    (w.ele = none →
      (w.geoInterface).geometry.coordinates = [w.lon.val.toReal, w.lat.val.toReal] ∧
      (w.geoInterface).geometry.coordinates.length = 2) ∧
    (∀ e, w.ele = some e →
      (w.geoInterface).geometry.coordinates =
        [w.lon.val.toReal, w.lat.val.toReal, e.toReal] ∧
      (w.geoInterface).geometry.coordinates.length = 3) := by
  refine ⟨rfl, rfl, fun h => ?_, fun e h => ?_⟩
  · constructor
    · simp [Waypoint.geoInterface, h]
    · simp [Waypoint.geoInterface, h]
  · constructor
    · simp [Waypoint.geoInterface, h]
    · simp [Waypoint.geoInterface, h]

/-- Witness for C8: a waypoint with elevation set projects to a length-3
coordinates array. -/
theorem claim_C8_witness :
    (wptEle.geoInterface).geometry.coordinates.length = 3 :=
  ((claim_C8_geo wptEle).2.2.2 ⟨5, 0⟩ rfl).2

/-- C9: the projection renders the links list as a dict keyed by link text:
looking a text up yields the LAST stored link's href with that text, so when
several links share a text only the last survives in this view. -/
theorem claim_C9_links_dict (w : Waypoint) (t : Option String) :
    pyDictLookup (w.geoInterface).properties.links t =
      (w.links.reverse.find? (fun l => l.text == t)).map Link.href := by
  show pyDictLookup (pyDictOf (w.links.map fun l => (l.text, l.href))) t = _
  rw [pyDictOf_lookup, ← List.map_reverse, List.find?_map, Option.map_map]
  rfl

/-- C10: elevation gain is antisymmetric, exactly, in decimal arithmetic:
`gain_to a b = −gain_to b a`, both when both elevations are set and when
either is absent. -/
theorem claim_C10_gain_antisymm (a b : Waypoint) :
    a.gain_to b = Dec.neg (b.gain_to a) := by
  cases ha : a.ele with
  | none =>
      cases hb : b.ele with
      | none => simp only [Waypoint.gain_to, ha, hb]; decide
      | some y => simp only [Waypoint.gain_to, ha, hb]; decide
  | some x =>
      cases hb : b.ele with
      | none => simp only [Waypoint.gain_to, ha, hb]; decide
      | some y =>
          simp only [Waypoint.gain_to, ha, hb, Dec.sub, Dec.neg]
          rw [Nat.max_comm x.e y.e]
          congr 1
          ring

end GPX
